import Mathlib

/-!
Shallow embedding of the `freebsd_build` kernel-configuration tool
(`src/freebsd_build/config.py`, `src/freebsd_build/kernel/files.py`,
`src/freebsd_build/kernel/options.py`).

Python strings are Lean `String`s; `str.upper()` / `str.lower()` are modelled
by mapping `Char.toUpper` / `Char.toLower` over the character list (the
inputs of this program are ASCII directive tokens, where the two case
foldings agree with Python's).  Python dicts are insertion-ordered
association lists (`List (String × _)`), matching CPython's documented
dict-order semantics; Python sets are lists used only through membership.
Exceptions are modelled with `Except PyErr`.  All string primitives are
re-implemented by structural recursion on `String.data` so that every
definition evaluates inside the kernel.
-/

/-- Python exception kinds raised (or raisable) by the embedded code:
`ConfigError` with its message, the builtin `ValueError`, `IndexError` and
`KeyError` that unguarded operations can raise, and the builtin `NameError`
(carrying the undefined name) raised when a `raise` statement references a
name that is not in scope in its module. -/
inductive PyErr where
  | configError (msg : String)
  | valueError
  | indexError
  | keyError (key : String)
  | nameError (name : String)
  deriving Repr, DecidableEq

/-- Python truthiness of an optional string (`None` and `""` are falsy). -/
def pyTruthy : Option String → Bool
  | none => false
  | some s => s ≠ ""

/-- Python `str(x)` for an optional string: `None` prints as `"None"`
(as happens in f-string interpolation of `self.config.machine` etc.). -/
def pyStr : Option String → String
  | none => "None"
  | some s => s

/-- `s.upper()` (ASCII). -/
def pyUpper (s : String) : String := String.mk (s.data.map Char.toUpper)

/-- `s.lower()` (ASCII). -/
def pyLower (s : String) : String := String.mk (s.data.map Char.toLower)

/-- `' '.join(l)`. -/
def joinSp : List String → String
  | [] => ""
  | [a] => a
  | a :: rest => a ++ " " ++ joinSp rest

/-- `c in s` for a character. -/
def strHasChar (s : String) (c : Char) : Bool := s.data.contains c

/-- `pre in`-prefix test, `s.startswith(pre)`. -/
def pyStartsWith (s pre : String) : Bool := pre.data.isPrefixOf s.data

/-- `s.endswith(post)`. -/
def pyEndsWith (s post : String) : Bool := post.data.reverse.isPrefixOf s.data.reverse

/-- `s[n:]`. -/
def strDrop (s : String) (n : Nat) : String := String.mk (s.data.drop n)

/-- `s[:-1]`. -/
def strDropLast (s : String) : String := String.mk s.data.dropLast

/-- `s[1:-1]`. -/
def strInner (s : String) : String := String.mk (s.data.drop 1).dropLast

/-- `value.split('=', 1)` under `'=' in value`: the part before the first
`=` and everything after it. -/
def splitEq (value : String) : String × String :=
  (String.mk (value.data.takeWhile (· ≠ '=')),
   String.mk ((value.data.dropWhile (· ≠ '=')).drop 1))

/-- Insert-or-update on an insertion-ordered association list, the semantics
of `d[k] = v` on a Python dict: an existing key keeps its position and gets
the new value, a new key is appended at the end. -/
def dictSet {α : Type} (l : List (String × α)) (k : String) (v : α) :
    List (String × α) :=
  if k ∈ l.map Prod.fst then
    l.map (fun p => if p.1 = k then (k, v) else p)
  else
    l ++ [(k, v)]

/-- `s.add(x)` on a Python set, modelled as append-if-absent. -/
def setAdd (l : List String) (x : String) : List String :=
  if x ∈ l then l else l ++ [x]

/-- The `KernelConfig` object of `src/freebsd_build/config.py` after
construction: `self.filename`, `self.machine`, `self.ident`, `self.cpu`,
`self.options` (dict, pre-seeded with `MAXUSERS = '0'`), `self.devices`
(set) and `self.makeoptions`.  `cpu` starts as `[]` and is overwritten by
the `cpu` directive with the raw string value; we model it as
`Option String` (`none` for the initial empty list). -/
structure KernelConfig where
  filename : String
  machine : Option String := none
  ident : Option String := none
  cpu : Option String := none
  options : List (String × Option String) := [("MAXUSERS", some "0")]
  devices : List String := []
  makeoptions : List String := []
  deriving Repr, DecidableEq

/-- The freshly-initialised configuration (`KernelConfig.__init__` before any
input file is parsed). -/
def initKernelConfig (filename : String) : KernelConfig := { filename := filename }

/-- `KernelConfig.option_set`: `option.upper() in self.options` (key lookup)
or `option.lower() in self.devices`. -/
def KernelConfig.option_set (K : KernelConfig) (option : String) : Bool :=
  if pyUpper option ∈ K.options.map Prod.fst then true
  else if pyLower option ∈ K.devices then true
  else false

/-- One `directive_<name>` dispatch step of `KernelConfig.parse_data`:
the six handler methods exist (`machine`, `cpu`, `ident`, `makeoptions`,
`options`, `device`); any other directive raises `ConfigError`.
`directive_machine` rejects a second occurrence (`if self.machine:` uses
Python truthiness). -/
def KernelConfig.applyDirective (K : KernelConfig) (directive value : String) :
    Except PyErr KernelConfig :=
  match directive with
  | "machine" =>
      if pyTruthy K.machine then
        .error (.configError "Only one machine directive may be provided")
      else
        .ok { K with machine := some value }
  | "cpu" => .ok { K with cpu := some value }
  | "ident" => .ok { K with ident := some value }
  | "makeoptions" => .ok { K with makeoptions := K.makeoptions ++ [value] }
  | "options" =>
      if strHasChar value '=' then
        .ok { K with options := dictSet K.options (splitEq value).1 (some (splitEq value).2) }
      else
        .ok { K with options := dictSet K.options value none }
  | "device" =>
      .ok { K with
              options := dictSet K.options ("DEV_" ++ pyUpper value) (some "1"),
              devices := setAdd K.devices value }
  | _ => .error (.configError ("unknown directive in kernel configuration: " ++ directive))

/-- Streaming a sequence of already-split `directive value` pairs through
`KernelConfig.applyDirective` (the loop of `KernelConfig.parse_data`). -/
def KernelConfig.applyDirectives (K : KernelConfig) :
    List (String × String) → Except PyErr KernelConfig
  | [] => .ok K
  | (d, v) :: rest =>
      match K.applyDirective d v with
      | .error e => .error e
      | .ok K' => K'.applyDirectives rest

/-- The configuration obtained by applying the single directive
`device foo` to a fresh `KernelConfig` (a concrete evaluation point). -/
def kDevFoo : KernelConfig :=
  { filename := "cfg",
    options := [("MAXUSERS", some "0"), ("DEV_FOO", some "1")],
    devices := ["foo"] }

/-- A parsed File-manifest entry (`File` in
`src/freebsd_build/kernel/files.py`).  `obj_prefix` is called `objPfx` and
`local` is called `isLocal` here (Lean lexical constraints); all other field
names are the source's. -/
structure File where
  filename : String := ""
  optional : List (List String) := []
  dependencies : List String := []
  compile_with : Option String := none
  clean : List String := []
  obj : Bool := true
  implicit_rule : Bool := true
  objPfx : Option String := none
  profiling : Bool := false
  isLocal : Bool := false
  before_depend : Bool := false
  warning : Option String := none
  deriving Repr, DecidableEq

/-- `File.DIRECTIVES`, the known manifest directive vocabulary. -/
def DIRECTIVES : List String :=
  ["standard", "optional", "profiling-routine", "no-obj", "no-implicit-rule",
   "compile-with", "dependency", "before-depend", "clean", "warning",
   "obj-prefix", "local"]

/-- `File.collect_non_directives`: pops leading tokens until the next known
directive keyword, returning the collected run and the remaining tokens. -/
def collectND : List String → List String × List String
  | [] => ([], [])
  | x :: rest =>
      if x ∈ DIRECTIVES then ([], x :: rest)
      else
        let p := collectND rest
        (x :: p.1, p.2)

theorem collectND_snd_length_le (l : List String) :
    (collectND l).2.length ≤ l.length := by
  induction l with
  | nil => simp [collectND]
  | cons x rest ih =>
      rw [collectND]
      by_cases hx : x ∈ DIRECTIVES
      · rw [if_pos hx]
      · rw [if_neg hx]
        exact Nat.le_succ_of_le ih

/-- `File.quoted_string`: join the collected run with spaces and strip one
layer of surrounding quotes when the result starts with `"` or `'`. -/
def quotedString (data : List String) : String × List String :=
  let p := collectND data
  let s := joinSp p.1
  (if pyStartsWith s "\"" || pyStartsWith s "\x27" then strInner s else s, p.2)

/-- `e.strip('"')`: remove the leading and trailing runs of `"`. -/
def stripDQ (s : String) : String :=
  String.mk (((s.data.dropWhile (· = '"')).reverse.dropWhile (· = '"')).reverse)

/-- `File.quoted_list`: the collected run with each token quote-stripped. -/
def quotedList (data : List String) : List String × List String :=
  let p := collectND data
  (p.1.map stripDQ, p.2)

/-- `s.update(xs)` on a Python set. -/
def setUpdate (l : List String) (xs : List String) : List String :=
  xs.foldl setAdd l

/-- The loop body of `File.parse_optional_spec`: tokens are accumulated into
the current run, `|` closes a run (intermediate empty runs are kept), and a
non-empty trailing run is appended at the end. -/
def parseOptionalSpecGo (run : List String) : List String → List (List String)
  | [] => if run.isEmpty then [] else [run]
  | e :: rest =>
      if e = "|" then run :: parseOptionalSpecGo [] rest
      else parseOptionalSpecGo (run ++ [e]) rest

/-- `File.parse_optional_spec`. -/
def parseOptionalSpec (spec : List String) : List (List String) :=
  parseOptionalSpecGo [] spec

/-- The directive loop of `File.parse_data`, threading the entry being built
and the list of `Skipping ... on ...` diagnostics printed so far.  A token
outside `DIRECTIVES` reaches `raise ConfigError(...)` — but
`src/freebsd_build/kernel/files.py` has no imports and never defines
`ConfigError`, so evaluating that name aborts with
`NameError: name 'ConfigError' is not defined` (before the message f-string
is even built); each known directive is handled by its `elif` arm; the
trailing `else` arm (the legacy fallback that prints a diagnostic and
discards the directive's argument run) is kept exactly as in the source. -/
def parseLoop (f : File) (diags : List String) (data : List String) :
    Except PyErr File × List String :=
  match data with
  | [] => (.ok f, diags)
  | directive :: rest =>
      if directive ∉ DIRECTIVES then
        (.error (.nameError "ConfigError"), diags)
      else if directive = "standard" then
        parseLoop f diags rest
      else if directive = "optional" then
        parseLoop { f with optional := parseOptionalSpec (collectND rest).1 } diags (collectND rest).2
      else if directive = "compile-with" then
        parseLoop { f with compile_with := some (quotedString rest).1 } diags (quotedString rest).2
      else if directive = "clean" then
        parseLoop { f with clean := setUpdate f.clean ((quotedList rest).1.filter (· ≠ f.filename)) }
          diags (quotedList rest).2
      else if directive = "no-obj" then
        parseLoop { f with obj := false } diags rest
      else if directive = "no-implicit-rule" then
        parseLoop { f with implicit_rule := false } diags rest
      else if directive = "dependency" then
        parseLoop { f with dependencies := f.dependencies ++ (quotedList rest).1 } diags (quotedList rest).2
      else if directive = "obj-prefix" then
        parseLoop { f with objPfx := some (quotedString rest).1 } diags (quotedString rest).2
      else if directive = "local" then
        parseLoop { f with isLocal := true } diags rest
      else if directive = "profiling-routine" then
        parseLoop { f with profiling := true } diags rest
      else if directive = "before-depend" then
        parseLoop { f with before_depend := true } diags rest
      else if directive = "warning" then
        parseLoop { f with warning := some (quotedString rest).1 } diags (quotedString rest).2
      else
        parseLoop f (diags ++ ["Skipping " ++ directive ++ " on " ++ f.filename]) (collectND rest).2
  termination_by data.length
  decreasing_by
    all_goals simp_wf
    all_goals exact Nat.lt_succ_of_le (collectND_snd_length_le _)

/-- `File.__init__` from a whitespace-tokenized manifest line: the first
token is the filename, the rest feed the directive loop; fewer than two
tokens make the `data.split(None, 1)` unpacking raise `ValueError`.  After
parsing, a filename ending in `ia32_genassym.o` is forced to
`before_depend = True` (the BEFORE DEPEND QUIRK). -/
def parseFileTokens (tokens : List String) : Except PyErr File × List String :=
  match tokens with
  | [] => (.error .valueError, [])
  | [_] => (.error .valueError, [])
  | fn :: rest =>
      let r := parseLoop { filename := fn } [] rest
      match r.1 with
      | .error e => (.error e, r.2)
      | .ok f =>
          (.ok (if pyEndsWith f.filename "ia32_genassym.o" then { f with before_depend := true } else f),
           r.2)

/-- One item of a conjunction, inside `File.configured`: `expected = True`,
a leading `!` flips `expected` and is stripped, then the result is
`config.option_set(item) == expected`.  An empty item raises `IndexError`
at `item[0]` (modelled as `none`). -/
def evalItem (K : KernelConfig) (item : String) : Option Bool :=
  match item.data with
  | [] => none
  | c :: rest =>
      if c = '!' then some (!(K.option_set (String.mk rest)))
      else some (K.option_set item)

/-- The inner loop of `File.configured` over one conjunction: items are
checked left to right, the first failing item breaks out with `False`. -/
def condSat (K : KernelConfig) : List String → Option Bool
  | [] => some true
  | item :: rest =>
      match evalItem K item with
      | none => none
      | some true => condSat K rest
      | some false => some false

/-- The outer loop of `File.configured` over the disjunction: the first
fully-satisfied conjunction returns `True`, otherwise `False`. -/
def configuredAux (K : KernelConfig) : List (List String) → Option Bool
  | [] => some false
  | c :: cs =>
      match condSat K c with
      | none => none
      | some true => some true
      | some false => configuredAux K cs

/-- `File.configured(config)`: an empty `optional` list is immediately
`True` (`if not self.optional`), otherwise the disjunction is scanned. -/
def File.configured (f : File) (K : KernelConfig) : Option Bool :=
  if f.optional.isEmpty then some true else configuredAux K f.optional

/-- Truth of a single condition item, as the specification words it: a bare
token `T` holds when `T` upper-cased is a configured option key or `T`
lower-cased is in the device set; a leading `!` inverts it. -/
def itemHolds (K : KernelConfig) (item : String) : Bool :=
  match item.data with
  | '!' :: rest => !(K.option_set (String.mk rest))
  | _ => K.option_set item

/-- The header filename derived in `Options.write_headers` for a
`DEV_`-prefixed option with no explicit routing entry:
`opt_<suffix lowercased>.h` where the suffix is `option[4:]`. -/
def devHeaderName (option : String) : String :=
  "opt_" ++ pyLower (strDrop option 4) ++ ".h"

/-- `optfiles = {filename: [] for filename in self.values()}`: one empty
entry list per routed header filename, in first-occurrence order. -/
def optfilesInit (routing : List (String × String)) :
    List (String × List (String × Option String)) :=
  routing.foldl (fun acc p => dictSet acc p.2 []) []

/-- One iteration of the option loop of `Options.write_headers`: a
`DEV_`-prefixed option absent from the routing table has its header entry
list **replaced** by the singleton (`optfiles[filename] = [(option, value)]`);
every other option is routed through the table (`self[option]`, a `KeyError`
if absent) and appended to its header's list. -/
def writeHeadersStep (routing : List (String × String))
    (acc : List (String × List (String × Option String)))
    (p : String × Option String) :
    Except PyErr (List (String × List (String × Option String))) :=
  if p.1 ∉ routing.map Prod.fst ∧ pyStartsWith p.1 "DEV_" then
    .ok (dictSet acc (devHeaderName p.1) [p])
  else
    match routing.lookup p.1 with
    | none => .error (.keyError p.1)
    | some filename =>
        match acc.lookup filename with
        | none => .error (.keyError filename)
        | some entries => .ok (dictSet acc filename (entries ++ [p]))

/-- The option loop of `Options.write_headers` folded over the
configuration's options in dict order. -/
def writeHeadersFold (routing : List (String × String)) :
    List (String × Option String) → List (String × List (String × Option String)) →
    Except PyErr (List (String × List (String × Option String)))
  | [], acc => .ok acc
  | p :: rest, acc =>
      match writeHeadersStep routing acc p with
      | .error e => .error e
      | .ok acc' => writeHeadersFold routing rest acc'

/-- `Options.write_headers` up to the final file writes: the mapping from
header filename to the `(option, value)` pairs written into it. -/
def writeHeadersTable (routing : List (String × String))
    (opts : List (String × Option String)) :
    Except PyErr (List (String × List (String × Option String))) :=
  writeHeadersFold routing opts (optfilesInit routing)

/-- One `#define` line of a generated option header (`if value:` is Python
truthiness, so `None` and `""` produce a bare `#define NAME`). -/
def renderDefine (p : String × Option String) : String :=
  "#define " ++ p.1 ++ (if pyTruthy p.2 then " " ++ pyStr p.2 else "") ++ "\n"

/-- The full text written into one header file. -/
def renderHeader (entries : List (String × Option String)) : String :=
  String.join (entries.map renderDefine)

/-- A minimal routing table: the `MAXUSERS` seed of `Options.__init__`. -/
def routing0 : List (String × String) := [("MAXUSERS", "opt_maxusers.h")]

/-- The configuration produced by `device foo` followed by the manual
directive `options DEV_foo` (two distinct option keys whose derived header
names collide). -/
def kDevFooShadow : KernelConfig :=
  { filename := "cfg",
    options := [("MAXUSERS", some "0"), ("DEV_FOO", some "1"), ("DEV_foo", none)],
    devices := ["foo"] }

/-- The header table `write_headers` produces for `kDevFooShadow` under
`routing0`. -/
def shadowTbl : List (String × List (String × Option String)) :=
  [("opt_maxusers.h", [("MAXUSERS", some "0")]), ("opt_foo.h", [("DEV_foo", none)])]

/-- The header table `write_headers` produces for `kDevFoo` under
`routing0`. -/
def devTbl : List (String × List (String × Option String)) :=
  [("opt_maxusers.h", [("MAXUSERS", some "0")]), ("opt_foo.h", [("DEV_FOO", some "1")])]

/-- A build edge, the 7-tuple `(obj, implicit_outs, rule, deps,
implicit_deps, order_deps, variables)` appended to `early_builds` /
`builds` in `BuildRules.generate_rules`. -/
structure BuildEdge where
  output : String
  implicit_outs : List String
  rule : String
  deps : List String
  implicit_deps : List String
  order_deps : List String
  varOverrides : List (String × String)
  deriving Repr, DecidableEq

/-- `data.split()` — Python whitespace tokenization, dropping empties. -/
def pySplitWsGo (cur : List Char) : List Char → List String
  | [] => if cur.isEmpty then [] else [String.mk cur.reverse]
  | c :: rest =>
      if c = ' ' ∨ c = '\t' ∨ c = '\n' then
        if cur.isEmpty then pySplitWsGo [] rest
        else String.mk cur.reverse :: pySplitWsGo [] rest
      else pySplitWsGo (c :: cur) rest

/-- `data.split()`. -/
def pySplitWs (s : String) : List String := pySplitWsGo [] s.data

/-- The module-level `CFLAGS` source string of `src/freebsd_build/config.py`
(before `.split()`). -/
def CFLAGS_STR : String :=
  "-O2 -pipe -fno-strict-aliasing -g -nostdinc --target=x86_64-unknown-freebsd -I. -I$S -I$S/contrib/libfdt -D_KERNEL -DHAVE_KERNEL_OPTION_HEADERS -include opt_global.h -fPIC -fno-common -fno-omit-frame-pointer -mno-omit-leaf-frame-pointer -MD -MF.depend.$out -MT$out -mcmodel=kernel -mno-red-zone -mno-mmx -mno-sse -msoft-float -fno-asynchronous-unwind-tables -ffreestanding -fwrapv -fstack-protector -gdwarf-2 -Wall -Wredundant-decls -Wnested-externs -Wstrict-prototypes -Wmissing-prototypes -Wpointer-arith -Winline -Wcast-qual -Wundef -Wno-pointer-sign -D__printf__=__freebsd_kprintf__ -Wmissing-include-dirs -fdiagnostics-show-option -Wno-unknown-pragmas -Wno-error-tautological-compare -Wno-error-empty-body -Wno-error-parentheses-equality -Wno-error-unused-function -Wno-error-pointer-sign -Wno-error-shift-negative-value -Wno-error-address-of-packed-member -mno-aes -mno-avx -std=iso9899:1999"

/-- `CFLAGS = '...'.split()`. -/
def CFLAGS : List String := pySplitWs CFLAGS_STR

/-- `[f for f in CFLAGS if f not in ('-flto', '-fno-common')]`. -/
def cflagsGenassym : List String :=
  CFLAGS.filter (fun f => f ∉ (["-flto", "-fno-common"] : List String))

/-- `BuildRules.DEFAULT_RULE_DEFINITIONS`, in dict-literal order. -/
def DEFAULT_RULE_DEFINITIONS : List (String × List (String × String)) :=
  [("as", [("command", "cc -c $ASM_CFLAGS $in")]),
   ("awk", [("command", "awk -f $in $args")]),
   ("awk_stdout", [("command", "awk -f $in $args > $out")]),
   ("cc", [("command", "$CC -c $CFLAGS $in"), ("deps", "gcc"), ("depfile", ".depend.$out")]),
   ("freebsd-config", [("command", "freebsd-config -b . $in"), ("generator", "1")]),
   ("hack", [("command", "touch hack.c && $CC -shared -nostdlib --target=x86_64-unknown-freebsd -fuse-ld=/Users/benno/src/llvm-build/bin/ld.lld hack.c -o $out && rm -f hack.c")]),
   ("ilink", [("command", "ln -fhs $in $out")]),
   ("ld", [("command", "$LD -Bdynamic -T $S/conf/ldscript.$MACHINE --no-warn-mismatch --warn-common --export-dynamic --dynamic-linker /red/herring -o $out -X $in")]),
   ("sh_stdout", [("command", "$env sh $in > $out")]),
   ("extract_debug", [("command", "$OBJCOPY --only-keep-debug $in $out")]),
   ("strip_debug", [("command", "$OBJCOPY --strip-debug --add-gnu-debuglink=kernel.debug $in $out")])]

/-- `BuildRules.DEFAULT_VARS`, in dict-literal order. -/
def DEFAULT_VARS : List (String × String) :=
  [("ASM_CFLAGS", "-x assembler-with-cpp -DLOCORE $CFLAGS"),
   ("OBJCOPY", "gobjcopy"),
   ("NM", "nm"),
   ("CC", "cc"),
   ("LD", "/Users/benno/src/llvm-build/bin/ld.lld")]

/-- The `env` override of the `assym.s` default build
(`NM='nm' NMFLAGS=''`, written here with hex escapes for the quotes). -/
def envNM : String := "NM=\x27nm\x27 NMFLAGS=\x27\x27"

/-- `BuildRules.DEFAULT_BUILDS`. -/
def DEFAULT_BUILDS : List BuildEdge :=
  [⟨"machine", [], "ilink", ["$S/$MACHINE/include"], [], [], []⟩,
   ⟨"x86", [], "ilink", ["$S/x86/include"], [], [], []⟩,
   ⟨"vnode_if.h", [], "awk", ["$S/tools/vnode_if.awk", "$S/kern/vnode_if.src"], [], [], [("args", "-h")]⟩,
   ⟨"vnode_if_newproto.h", [], "awk", ["$S/tools/vnode_if.awk", "$S/kern/vnode_if.src"], [], [], [("args", "-p")]⟩,
   ⟨"vnode_if_typedef.h", [], "awk", ["$S/tools/vnode_if.awk", "$S/kern/vnode_if.src"], [], [], [("args", "-q")]⟩,
   ⟨"vnode_if.c", [], "awk", ["$S/tools/vnode_if.awk", "$S/kern/vnode_if.src"], [], [], [("args", "-c")]⟩,
   ⟨"genassym.o", [], "cc", ["$S/$MACHINE/$MACHINE/genassym.c"], [], [], [("CFLAGS", "$CFLAGS_GENASSYM")]⟩,
   ⟨"assym.s", [], "sh_stdout", ["$S/kern/genassym.sh", "genassym.o"], [], [], [("env", envNM)]⟩,
   ⟨"hack.pico", [], "hack", [], [], [], []⟩]

/-- `os.path.split(s)[1]` (POSIX): the part after the last `/`. -/
def pyBasename (s : String) : String :=
  String.mk ((s.data.reverse.takeWhile (· ≠ '/')).reverse)

/-- `f.filename.rsplit('.', 1)[1]`: the part after the last `.`, or the
`IndexError` (`none`) when the name has no dot and `rsplit` returns a
one-element list. -/
def extOf (s : String) : Option String :=
  if strHasChar s '.' then
    some (String.mk ((s.data.reverse.takeWhile (· ≠ '.')).reverse))
  else none

/-- The scan of `str.replace(old, new)`: all non-overlapping occurrences,
left to right.  The recursion is kept structural on a character-count bound;
each step consumes at least one character, so a bound of the input's length
(as passed by `replaceAll`) is never exhausted.  (`old` is never empty at
the call sites; that case is returned unchanged.) -/
def replaceAllGo (old new : List Char) : Nat → List Char → List Char
  | _, [] => []
  | 0, sdata => sdata
  | fuel + 1, c :: rest =>
      if old.isPrefixOf (c :: rest) ∧ old ≠ [] then
        new ++ replaceAllGo old new fuel (rest.drop (old.length - 1))
      else
        c :: replaceAllGo old new fuel rest

/-- `str.replace(old, new)` on character lists. -/
def replaceAll (sdata old new : List Char) : List Char :=
  replaceAllGo old new sdata.length sdata

/-- `s.replace(old, new)`. -/
def pyReplace (s old new : String) : String :=
  String.mk (replaceAll s.data old.data new.data)

/-- The scanning core of `re.sub(r'\$\x7b(.*?)\x7d', ...)`: from a position
just after `$\x7b`, collect characters up to the first closing brace
(`.` does not match a newline, so a newline or the end of input means no
match at this position). -/
def scanBrace : List Char → Option (List Char × List Char)
  | [] => none
  | c :: rest =>
      if c = '}' then some ([], rest)
      else if c = '\n' then none
      else
        match scanBrace rest with
        | none => none
        | some p => some (c :: p.1, p.2)

/-- `re.sub(r'\$\x7b(.*?)\x7d', '$\\1', rule)`: every `$`-brace group is
rewritten to `$` followed by the group body. -/
def subVarsGo : Nat → List Char → List Char
  | _, [] => []
  | 0, l => l
  | fuel + 1, '$' :: '{' :: rest2 =>
      (match scanBrace rest2 with
       | some p => '$' :: (p.1 ++ subVarsGo fuel p.2)
       | none => '$' :: subVarsGo fuel ('{' :: rest2))
  | fuel + 1, c :: rest => c :: subVarsGo fuel rest

/-- The full substitution: structural on a character-count bound; each step
consumes at least one character, so the input's length (as passed by
`subVars`) is never exhausted. -/
def subVars (l : List Char) : List Char := subVarsGo l.length l

/-- The placeholder rewriting applied to an unmatched custom recipe:
`${.IMPSRC}` to `$in`, `${.TARGET}` to `$out`, then every remaining
`${VAR}` to `$VAR`. -/
def rewriteRecipe (rule : String) : String :=
  let r1 := pyReplace rule "${.IMPSRC}" "$in"
  let r2 := pyReplace r1 "${.TARGET}" "$out"
  String.mk (subVars r2.data)

/-- The mutable loop state of `BuildRules.generate_rules`: the ad-hoc rule
table (`rules`, command text to rule name, insertion-ordered), the rule
counter, the two edge lists, the before-depends name list and the
link-object list. -/
structure GenState where
  rules : List (String × String)
  rule_counter : Nat
  early_builds : List BuildEdge
  builds : List BuildEdge
  before_depends : List String
  objs : List String
  deriving Repr, DecidableEq

/-- The state at the top of `generate_rules`: empty rule table, counter 0,
`early_builds` seeded with the default builds, `objs` seeded with
`locore.o`. -/
def initGenState : GenState :=
  { rules := [], rule_counter := 0, early_builds := DEFAULT_BUILDS,
    builds := [], before_depends := [], objs := ["locore.o"] }

/-- The `for regex, processor in self.patterns` scan: a pattern is modelled
as a function from the file entry to an optional build edge (a regex whose
match fails yields `none`); the first pattern that matches wins. -/
def firstPattern (patterns : List (File → Option BuildEdge)) (f : File) :
    Option BuildEdge :=
  patterns.findSome? (fun p => p f)

/-- Placing a produced build edge: a before-depend entry registers its
output in the before-depends set and goes to the early list, otherwise it
goes to the normal list; an object-producing entry appends its output to
the link list. -/
def placeBuild (st : GenState) (f : File) (build : BuildEdge) : GenState :=
  let st1 :=
    if f.before_depend then
      { st with before_depends := st.before_depends ++ [build.output],
                early_builds := st.early_builds ++ [build] }
    else { st with builds := st.builds ++ [build] }
  if f.obj then { st1 with objs := st1.objs ++ [build.output] } else st1

/-- One iteration of the `for f in self.files` loop of
`BuildRules.generate_rules`: skip unconfigured and profiling entries; an
entry with a falsy recipe dispatches on the extension after the last dot
(an `IndexError` if there is none: C9); `c`, `m` and `S` produce their
edges, anything else raises `ConfigError`; a truthy recipe is matched
against the patterns, and on no match is rewritten and interned into the
ad-hoc rule table (`rule0`, `rule1`, ... by first occurrence). -/
def processFile (K : KernelConfig) (patterns : List (File → Option BuildEdge))
    (st : GenState) (f : File) : Except PyErr GenState :=
  match f.configured K with
  | none => .error .indexError
  | some false => .ok st
  | some true =>
      if f.profiling then .ok st
      else if pyTruthy f.compile_with = false then
        match extOf f.filename with
        | none => .error .indexError
        | some ext =>
            if ext = "c" then
              let obj := strDropLast (pyBasename f.filename) ++ "o"
              let src := if f.isLocal then f.filename else "$S/" ++ f.filename
              .ok { st with
                      builds := st.builds ++ [⟨obj, [], "cc", [src], [], [], []⟩],
                      objs := if f.obj then st.objs ++ [obj] else st.objs }
            else if ext = "m" then
              let base := pyBasename f.filename
              let c_obj := strDropLast base ++ "c"
              let h_obj := strDropLast base ++ "h"
              let obj := strDropLast base ++ "o"
              .ok { st with
                      builds := st.builds ++
                        [⟨c_obj, [], "awk", ["$S/tools/makeobjops.awk", "$S/" ++ f.filename], [], [], [("args", "-c")]⟩,
                         ⟨obj, [], "cc", [c_obj], [], [], []⟩],
                      before_depends := st.before_depends ++ [h_obj],
                      early_builds := st.early_builds ++
                        [⟨h_obj, [], "awk", ["$S/tools/makeobjops.awk", "$S/" ++ f.filename], [], [], [("args", "-h")]⟩],
                      objs := if f.obj then st.objs ++ [obj] else st.objs }
            else if ext = "S" then
              let obj := strDropLast (pyBasename f.filename) ++ "o"
              .ok { st with
                      builds := st.builds ++ [⟨obj, [], "as", ["$S/" ++ f.filename], [], [], []⟩],
                      objs := if f.obj then st.objs ++ [obj] else st.objs }
            else .error (.configError ("No idea what to do with " ++ f.filename))
      else
        match firstPattern patterns f with
        | some build => .ok (placeBuild st f build)
        | none =>
            match st.rules.lookup (rewriteRecipe (pyStr f.compile_with)) with
            | some rule_name =>
                .ok (placeBuild st f ⟨f.filename, [], rule_name, f.dependencies, [], [], []⟩)
            | none =>
                .ok (placeBuild
                      { st with
                          rules := st.rules ++
                            [(rewriteRecipe (pyStr f.compile_with), "rule" ++ toString st.rule_counter)],
                          rule_counter := st.rule_counter + 1 }
                      f ⟨f.filename, [], "rule" ++ toString st.rule_counter, f.dependencies, [], [], []⟩)

/-- The whole `for f in self.files` loop. -/
def processFiles (K : KernelConfig) (patterns : List (File → Option BuildEdge)) :
    List File → GenState → Except PyErr GenState
  | [], st => .ok st
  | f :: rest, st =>
      match processFile K patterns st f with
      | .error e => .error e
      | .ok st' => processFiles K patterns rest st'

/-- `self.vars` after `BuildRules.__init__`: a copy of `DEFAULT_VARS`
updated with the constructor's `vars` argument. -/
def mkVars (varsParam : List (String × String)) : List (String × String) :=
  varsParam.foldl (fun acc p => dictSet acc p.1 p.2) DEFAULT_VARS

/-- `d.pop(k)`: the value and the dict without the key (`none` models the
`KeyError` raised when the key is absent). -/
def dictPop {α : Type} (l : List (String × α)) (k : String) :
    Option (α × List (String × α)) :=
  match l.lookup k with
  | none => none
  | some v => some (v, l.filter (fun p => p.1 ≠ k))

/-- One `name = value` line of the variable header. -/
def renderVarLine (p : String × String) : String := p.1 ++ " = " ++ p.2 ++ "\n"

/-- One built-in rule block (`rule <name>` plus indented metadata lines). -/
def renderRuleBlock (r : String × List (String × String)) : String :=
  "rule " ++ r.1 ++ "\n" ++
    String.join (r.2.map (fun p => "  " ++ p.1 ++ " = " ++ p.2 ++ "\n"))

/-- One synthesized ad-hoc rule declaration
(`rule <name>` / `  command = <text>`). -/
def renderAdhocRule (r : String × String) : String :=
  "rule " ++ r.2 ++ "\n  command = " ++ r.1 ++ "\n"

/-- The indented `name = value` lines of an edge's variable overrides. -/
def renderEdgeVars (vs : List (String × String)) : String :=
  String.join (vs.map (fun p => "  " ++ p.1 ++ " = " ++ p.2 ++ "\n"))

/-- The early-build edge line: every section guarded by the Python
truthiness of its list. -/
def renderEarlyEdge (e : BuildEdge) : String :=
  "build " ++ e.output
    ++ (if e.implicit_outs.isEmpty then "" else " | " ++ joinSp e.implicit_outs)
    ++ ": " ++ e.rule ++ " " ++ joinSp e.deps
    ++ (if e.implicit_deps.isEmpty then "" else " | " ++ joinSp e.implicit_deps)
    ++ (if e.order_deps.isEmpty then "" else " || " ++ joinSp e.order_deps)
    ++ "\n" ++ renderEdgeVars e.varOverrides

/-- The normal-build edge line: the implicit-inputs section is written
unconditionally, with the whole before-depends list prepended to the edge's
own implicit dependencies. -/
def renderNormalEdge (before_depends : List String) (e : BuildEdge) : String :=
  "build " ++ e.output
    ++ (if e.implicit_outs.isEmpty then "" else " | " ++ joinSp e.implicit_outs)
    ++ ": " ++ e.rule ++ " " ++ joinSp e.deps
    ++ " | " ++ joinSp (before_depends ++ e.implicit_deps)
    ++ (if e.order_deps.isEmpty then "" else " || " ++ joinSp e.order_deps)
    ++ "\n" ++ renderEdgeVars e.varOverrides

/-- The fixed trailing edges: version generation, link, debug extraction,
strip, and the self-regeneration edge. -/
def trailerText (K : KernelConfig) (st : GenState) : String :=
  "build vers.c | version: newvers\n"
    ++ "build kernel.full: ld " ++ joinSp st.objs ++ "\n"
    ++ "build kernel.debug: extract_debug kernel.full\n"
    ++ "build kernel: strip_debug kernel.full | kernel.debug\n"
    ++ "\n"
    ++ "build build.ninja: freebsd-config $KERNEL_CONFIG\n"

/-- The serialization phase of `generate_rules` (the `with open(...)` body):
`MACHINE`, the popped `S` and `CFLAGS` variables, the remaining variables,
the built-in rule blocks, the `newvers` rule, the synthesized rules, the
early edges, the normal edges (each with the full before-depends list in
its implicit section), and the trailing edges. -/
def serialize (K : KernelConfig) (vars : List (String × String)) (st : GenState) :
    Except PyErr String :=
  match dictPop vars "S" with
  | none => .error (.keyError "S")
  | some sp =>
      match dictPop sp.2 "CFLAGS" with
      | none => .error (.keyError "CFLAGS")
      | some cp =>
          .ok ("MACHINE = " ++ pyStr K.machine ++ "\n"
            ++ "S = " ++ sp.1 ++ "\n"
            ++ "CFLAGS = " ++ cp.1 ++ "\n"
            ++ String.join (cp.2.map renderVarLine)
            ++ "\n"
            ++ String.join (DEFAULT_RULE_DEFINITIONS.map renderRuleBlock)
            ++ "rule newvers\n"
            ++ "  command = MAKE=./versmake.sh sh $S/conf/newvers.sh " ++ pyStr K.ident ++ "\n"
            ++ String.join (st.rules.map renderAdhocRule)
            ++ "\n"
            ++ String.join (st.early_builds.map renderEarlyEdge)
            ++ String.join (st.builds.map (renderNormalEdge st.before_depends))
            ++ trailerText K st)

/-- `BuildRules.generate_rules` as a function of the parsed inputs: set the
computed variables, run the file loop, append `hack.pico` to the link list,
and serialize.  Returns the final loop state together with the bytes
written to `build.ninja`. -/
def generateRules (K : KernelConfig) (files : List File)
    (patterns : List (File → Option BuildEdge)) (vars : List (String × String)) :
    Except PyErr (GenState × String) :=
  Except.bind (processFiles K patterns files initGenState) (fun st =>
    Except.map (fun out => ({ st with objs := st.objs ++ ["hack.pico"] }, out))
      (serialize K
        (dictSet (dictSet (dictSet (mkVars vars) "CFLAGS" (joinSp CFLAGS))
            "CFLAGS_GENASSYM" (joinSp cflagsGenassym))
          "KERNEL_CONFIG" K.filename)
        { st with objs := st.objs ++ ["hack.pico"] }))

/-- The sequential names `rule0`, `rule1`, ... -/
def autoNames (n : Nat) : List String :=
  (List.range n).map (fun i => "rule" ++ toString i)

/-- The edge-line format of the specification (§4.4), modelled from the
spec's words: `build <output> [| <implicit-outputs>]: <rule>
<explicit-inputs> [| <implicit-inputs>] [|| <order-only-inputs>]`, each
bracketed section present only when its list is non-empty, followed by the
indented `name = value` override lines. -/
def specRenderEdge (implicit_inputs : List String) (e : BuildEdge) : String :=
  "build " ++ e.output
    ++ (if e.implicit_outs.isEmpty then "" else " | " ++ joinSp e.implicit_outs)
    ++ ": " ++ e.rule ++ " " ++ joinSp e.deps
    ++ (if implicit_inputs.isEmpty then "" else " | " ++ joinSp implicit_inputs)
    ++ (if e.order_deps.isEmpty then "" else " || " ++ joinSp e.order_deps)
    ++ "\n" ++ renderEdgeVars e.varOverrides

/-- The normal compile edge generated for the entry `foo.c standard`. -/
def eFooO : BuildEdge := ⟨"foo.o", [], "cc", ["$S/foo.c"], [], [], []⟩

/-- The manifest entry `foo.c standard`. -/
def fFooC : File := { filename := "foo.c" }

/-- The manifest entry `locore standard` (a recipe-less path with no dot). -/
def fNoDot : File := { filename := "locore" }

/-- Invariant of the ad-hoc rule table maintained by the file loop: the
counter equals the table size, names are the sequential `rule0`, `rule1`,
..., and command texts (the keys) are pairwise distinct. -/
def RulesInv (st : GenState) : Prop :=
  st.rule_counter = st.rules.length ∧
  st.rules.map Prod.snd = autoNames st.rules.length ∧
  (st.rules.map Prod.fst).Nodup

/-- Invariant relating the before-depends set to the early-build list:
every registered name is the output of some early edge. -/
def BeforeInv (st : GenState) : Prop :=
  ∀ n ∈ st.before_depends, ∃ e ∈ st.early_builds, e.output = n

/-- An entry takes the opaque-recipe fallback of `generate_rules` iff it is
configured, not profiling-only, carries a truthy recipe and matches no
pattern. -/
def takesFallback (K : KernelConfig) (patterns : List (File → Option BuildEdge))
    (f : File) : Prop :=
  f.configured K = some true ∧ f.profiling = false ∧
    pyTruthy f.compile_with = true ∧ firstPattern patterns f = none

/-- A concrete configuration for whole-pipeline evaluation points. -/
def KW : KernelConfig :=
  { filename := "CFG", machine := some "amd64", ident := some "TEST" }

/-- A concrete `vars` argument providing the `S` variable that
`generate_rules` pops. -/
def varsS : List (String × String) := [("S", "/src/sys")]

/-- First manifest entry with a custom recipe matching no pattern. -/
def fCw1 : File :=
  { filename := "a.x", compile_with := some "${CC} -c -DFANCY ${.IMPSRC}" }

/-- Second manifest entry with the byte-identical custom recipe. -/
def fCw2 : File :=
  { filename := "b.x", compile_with := some "${CC} -c -DFANCY ${.IMPSRC}" }

/-- The two-entry manifest of the shared-rule scenario. -/
def filesW : List File := [fCw1, fCw2]

/-- The result of `generate_rules` on the shared-rule scenario. -/
def genResW : GenState × String :=
  match generateRules KW filesW [] varsS with
  | .ok p => p
  | .error _ => (initGenState, "")

/-- The manifest entry `bus_if.m standard` (an interface-definition file
whose generated header joins the before-depends set). -/
def fBusM : File := { filename := "bus_if.m" }

/-- The result of `generate_rules` on the single-entry `bus_if.m` manifest. -/
def genResM : GenState × String :=
  match generateRules KW [fBusM] [] varsS with
  | .ok p => p
  | .error _ => (initGenState, "")

/-- The manifest entry `foo.c optional a`. -/
def fOptA : File := { filename := "foo.c", optional := [["a"]] }

/-- A configuration with devices `{a, b}` in one representation order. -/
def K6a : KernelConfig :=
  { filename := "CFG", machine := some "amd64", ident := some "TEST",
    options := [("MAXUSERS", some "0"), ("FOO", none)],
    devices := ["a", "b"] }

/-- The same configuration with the device set in the other order and
different option values (only key membership matters to the synthesizer). -/
def K6b : KernelConfig :=
  { filename := "CFG", machine := some "amd64", ident := some "TEST",
    options := [("FOO", some "7"), ("MAXUSERS", none)],
    devices := ["b", "a"] }

theorem itemHolds_not_bang (K : KernelConfig) (c : Char) (rest : List Char)
    (hc : c ≠ '!') : itemHolds K (String.mk (c :: rest)) = K.option_set (String.mk (c :: rest)) := by
  unfold itemHolds
  split
  · next r heq =>
      exact absurd (List.head_eq_of_cons_eq (show c :: rest = '!' :: r from heq)) hc
  · rfl

theorem evalItem_eq_some (K : KernelConfig) (item : String) (h : item ≠ "") :
    evalItem K item = some (itemHolds K item) := by
  obtain ⟨d⟩ := item
  cases d with
  | nil => exact absurd rfl h
  | cons c rest =>
      by_cases hc : c = '!'
      · subst hc; rfl
      · show (if c = '!' then some (!(K.option_set (String.mk rest)))
              else some (K.option_set (String.mk (c :: rest)))) =
            some (itemHolds K (String.mk (c :: rest)))
        rw [if_neg hc, itemHolds_not_bang K c rest hc]

theorem condSat_eq_all (K : KernelConfig) (c : List String)
    (h : ∀ i ∈ c, i ≠ "") :
    condSat K c = some (c.all (itemHolds K)) := by
  induction c with
  | nil => rfl
  | cons i rest ih =>
      rw [condSat, evalItem_eq_some K i (h i (by simp))]
      cases hih : itemHolds K i with
      | true =>
          rw [ih (fun j hj => h j (List.mem_cons_of_mem _ hj))]
          simp [List.all_cons, hih]
      | false => simp [List.all_cons, hih]

theorem configuredAux_eq_any (K : KernelConfig) (cs : List (List String))
    (h : ∀ c ∈ cs, ∀ i ∈ c, i ≠ "") :
    configuredAux K cs = some (cs.any (fun c => c.all (itemHolds K))) := by
  induction cs with
  | nil => rfl
  | cons c rest ih =>
      rw [configuredAux, condSat_eq_all K c (h c (by simp))]
      cases hall : c.all (itemHolds K) with
      | true => simp [List.any_cons, hall]
      | false =>
          rw [ih (fun c' hc' => h c' (List.mem_cons_of_mem _ hc'))]
          simp [List.any_cons, hall]

/-- C1: for every File Entry condition (whose items, as produced by the
manifest tokenizer, are non-empty) and every configuration, `File.configured`
returns `True` iff the condition is empty or some conjunction is fully
satisfied, where an item's truth is: bare token `T` holds iff `T` upper-cased
is an option key or `T` lower-cased is a device, and a leading `!` inverts
the expected value.  In particular the empty condition evaluates to `True`
for every configuration. -/
theorem C1_configured_iff (f : File) (K : KernelConfig)
    (h : ∀ c ∈ f.optional, ∀ i ∈ c, i ≠ "") :
    f.configured K = some true ↔
      (f.optional = [] ∨ ∃ c ∈ f.optional, ∀ i ∈ c, itemHolds K i = true) := by
  unfold File.configured
  cases hopt : f.optional with
  | nil => simp
  | cons c cs =>
      rw [hopt] at h
      rw [if_neg (by simp)]
      rw [configuredAux_eq_any K (c :: cs) h]
      constructor
      · intro hsome
        have hany : (c :: cs).any (fun c => c.all (itemHolds K)) = true := by
          simpa using hsome
        rcases List.any_eq_true.mp hany with ⟨c', hc', hall⟩
        exact Or.inr ⟨c', hc', fun i hi => List.all_eq_true.mp hall i hi⟩
      · rintro (hnil | ⟨c', hc', hall⟩)
        · exact absurd hnil (by simp)
        · have hany : (c :: cs).any (fun c => c.all (itemHolds K)) = true :=
            List.any_eq_true.mpr ⟨c', hc', List.all_eq_true.mpr hall⟩
          rw [hany]

/-- Witness for C1: the condition `a | !b` against a configuration having
neither `a` nor `b` evaluates to `True` (second conjunction satisfied). -/
theorem C1_configured_iff_witness :
    ({ filename := "qux.c", optional := [["a"], ["!b"]] } : File).configured
        (initKernelConfig "cfg") = some true := by
  have h := C1_configured_iff
    ({ filename := "qux.c", optional := [["a"], ["!b"]] } : File)
    (initKernelConfig "cfg")
    (by intro c hc i hi; fin_cases hc <;> fin_cases hi <;> decide)
  refine h.mpr (Or.inr ⟨["!b"], by simp, ?_⟩)
  intro i hi
  fin_cases hi
  decide

theorem dictSet_key_mem {α : Type} {l : List (String × α)} {k k' : String} {v : α}
    (h : k' ∈ l.map Prod.fst) : k' ∈ (dictSet l k v).map Prod.fst := by
  unfold dictSet
  by_cases hc : k ∈ l.map Prod.fst
  · rw [if_pos hc]
    rcases List.mem_map.mp h with ⟨p, hp, hpk⟩
    apply List.mem_map.mpr
    refine ⟨if p.1 = k then (k, v) else p, List.mem_map_of_mem _ hp, ?_⟩
    by_cases hpk2 : p.1 = k
    · rw [if_pos hpk2]
      rw [← hpk2]; exact hpk
    · rw [if_neg hpk2]; exact hpk
  · rw [if_neg hc, List.map_append, List.mem_append]
    exact Or.inl h

theorem applyDirective_maxusers {K : KernelConfig} {d v : String} {K' : KernelConfig}
    (hK : "MAXUSERS" ∈ K.options.map Prod.fst)
    (h : K.applyDirective d v = .ok K') :
    "MAXUSERS" ∈ K'.options.map Prod.fst := by
  unfold KernelConfig.applyDirective at h
  split at h <;> try split at h
  all_goals first
    | exact Except.noConfusion h
    | (injection h with h2; subst h2; exact hK)
    | (injection h with h2; subst h2; exact dictSet_key_mem hK)

theorem applyDirectives_maxusers (ds : List (String × String)) :
    ∀ (K K' : KernelConfig), "MAXUSERS" ∈ K.options.map Prod.fst →
      K.applyDirectives ds = .ok K' → "MAXUSERS" ∈ K'.options.map Prod.fst := by
  induction ds with
  | nil =>
      intro K K' hK h
      injection h with h2
      subst h2; exact hK
  | cons dv rest ih =>
      intro K K' hK h
      obtain ⟨d, v⟩ := dv
      rw [KernelConfig.applyDirectives] at h
      cases hstep : K.applyDirective d v with
      | error e => rw [hstep] at h; exact Except.noConfusion h
      | ok Kmid =>
          rw [hstep] at h
          exact ih Kmid K' (applyDirective_maxusers hK hstep) h

/-- C10: every configuration reachable from construction, whatever the input
directives, keeps the key `MAXUSERS` (seeded at `__init__`) in its options
mapping, so `option_set` is true for every token whose upper-casing is
`MAXUSERS`. -/
theorem C10_maxusers_always (fn : String) (ds : List (String × String))
    (K : KernelConfig) (h : (initKernelConfig fn).applyDirectives ds = .ok K) :
    "MAXUSERS" ∈ K.options.map Prod.fst ∧
      ∀ t : String, pyUpper t = "MAXUSERS" → K.option_set t = true := by
  have hmem : "MAXUSERS" ∈ K.options.map Prod.fst :=
    applyDirectives_maxusers ds (initKernelConfig fn) K (by simp [initKernelConfig]) h
  refine ⟨hmem, fun t ht => ?_⟩
  unfold KernelConfig.option_set
  rw [ht, if_pos hmem]

/-- Witness for C10: after `device foo`, `option_set("maxusers")` holds. -/
theorem C10_maxusers_always_witness :
    "MAXUSERS" ∈ (kDevFoo.options.map Prod.fst) ∧
      kDevFoo.option_set "maxusers" = true := by
  have h := C10_maxusers_always "cfg" [("device", "foo")] kDevFoo (by rfl)
  exact ⟨h.1, h.2 "maxusers" (by decide)⟩

theorem parseLoop_no_diags (f : File) (diags data : List String) :
    (parseLoop f diags data).2 = diags := by
  induction f, diags, data using parseLoop.induct
  all_goals rw [parseLoop]
  all_goals simp_all [DIRECTIVES]

/-- Counterexample for C4: a manifest entry carrying the out-of-vocabulary
directive `frobnicate` makes parsing abort fatally and prints no `Skipping`
diagnostic — the parser does not discard the argument run and continue.
The abort is the untyped `NameError: name 'ConfigError' is not defined`,
since `kernel/files.py` reaches `raise ConfigError(...)` without
`ConfigError` being in scope in that module. -/
theorem C4_counterexample :
    parseFileTokens ["foo.c", "frobnicate", "bar"] =
      (.error (.nameError "ConfigError"), []) := by
  simp [parseFileTokens, parseLoop, DIRECTIVES]

/-- C4 amended: the legacy fallback arm of `File.parse_data` (print
`Skipping ...` and discard the argument run) is unreachable — every known
directive keyword has an explicit handler, and an unknown keyword aborts
before reaching it (with the untyped `NameError` for the out-of-scope name
`ConfigError`, not even the typed error the `raise` intends).  Hence
manifest parsing never emits a diagnostic, and a directive keyword outside
the known vocabulary is always a fatal abort rather than a tolerated
legacy directive. -/
theorem C4_unknown_directive_fatal :
    (∀ tokens : List String, (parseFileTokens tokens).2 = []) ∧
    (∀ (f : File) (diags : List String) (d : String) (rest : List String),
        d ∉ DIRECTIVES →
        (parseLoop f diags (d :: rest)).1 = .error (.nameError "ConfigError")) := by
  constructor
  · intro tokens
    match tokens with
    | [] => rfl
    | [_] => rfl
    | fn :: d :: rest =>
        show (match (parseLoop { filename := fn } [] (d :: rest)).1 with
              | .error e => ((.error e : Except PyErr File), (parseLoop { filename := fn } [] (d :: rest)).2)
              | .ok f => (.ok (if pyEndsWith f.filename "ia32_genassym.o" then { f with before_depend := true } else f),
                          (parseLoop { filename := fn } [] (d :: rest)).2)).2 = []
        cases (parseLoop { filename := fn } [] (d :: rest)).1 with
        | error e => exact parseLoop_no_diags _ _ _
        | ok f => exact parseLoop_no_diags _ _ _
  · intro f diags d rest h
    rw [parseLoop, if_pos h]

/-- Witness for C4's amended statement at a concrete input. -/
theorem C4_unknown_directive_fatal_witness :
    (parseFileTokens ["bar.c", "standard"]).2 = [] ∧
    (parseLoop { filename := "bar.c" } [] ["frobnicate", "xyz"]).1 =
      .error (.nameError "ConfigError") := by
  exact ⟨C4_unknown_directive_fatal.1 ["bar.c", "standard"],
         C4_unknown_directive_fatal.2 { filename := "bar.c" } [] "frobnicate" ["xyz"] (by decide)⟩

/-- Counterexample for C5: a File Entry whose optional-spec contains an
empty conjunction item is not fatal at all when an earlier conjunction is
satisfied — `File.configured` silently returns `True`, no `MalformedCondition`
error exists anywhere in the code, and generation continues. -/
theorem C5_counterexample :
    ({ filename := "x.c", optional := [["!a"], [""]] } : File).configured
        (initKernelConfig "cfg") = some true := by
  rfl

/-- C5 amended: an empty conjunction item is not guarded by any typed
`MalformedCondition` error; when condition evaluation actually reaches it
(here: it heads the first conjunction) the evaluator crashes with an
untyped `IndexError` at `item[0]`, and when an earlier conjunction is
satisfied the malformed item is silently bypassed. -/
theorem C5_empty_item_crash (K : KernelConfig) (f : File)
    (tail : List String) (rest : List (List String))
    (h : f.optional = ("" :: tail) :: rest) :
    f.configured K = none := by
  rw [File.configured, h]
  rfl

/-- Witness for C5's amended statement at a concrete input. -/
theorem C5_empty_item_crash_witness :
    ({ filename := "y.c", optional := [[""]] } : File).configured
        (initKernelConfig "cfg") = none :=
  C5_empty_item_crash (initKernelConfig "cfg") _ [] [] rfl

theorem lookup_of_not_mem_keys {α : Type} {l : List (String × α)} {k : String}
    (h : k ∉ l.map Prod.fst) : l.lookup k = none := by
  induction l with
  | nil => rfl
  | cons p rest ih =>
      obtain ⟨pk, pv⟩ := p
      simp only [List.map_cons, List.mem_cons] at h
      push_neg at h
      rw [List.lookup_cons, show (k == pk) = false from beq_eq_false_iff_ne.mpr h.1]
      exact ih h.2

theorem lookup_map_upd {α : Type} {l : List (String × α)} {k : String} (v : α)
    (hm : k ∈ l.map Prod.fst) :
    (l.map (fun p => if p.1 = k then (k, v) else p)).lookup k = some v := by
  induction l with
  | nil => simp at hm
  | cons p rest ih =>
      obtain ⟨pk, pv⟩ := p
      by_cases hp : pk = k
      · subst hp
        simp [List.lookup_cons]
      · have hrest : k ∈ rest.map Prod.fst := by
          simp only [List.map_cons, List.mem_cons] at hm
          rcases hm with h1 | h1
          · exact absurd h1.symm hp
          · exact h1
        rw [List.map_cons, show (if (pk, pv).1 = k then (k, v) else (pk, pv)) = (pk, pv)
              from if_neg hp,
            List.lookup_cons, show (k == pk) = false from beq_eq_false_iff_ne.mpr (Ne.symm hp)]
        exact ih hrest

theorem dictSet_lookup_self {α : Type} (l : List (String × α)) (k : String) (v : α) :
    (dictSet l k v).lookup k = some v := by
  unfold dictSet
  by_cases hm : k ∈ l.map Prod.fst
  · rw [if_pos hm]
    exact lookup_map_upd v hm
  · rw [if_neg hm, List.lookup_append, lookup_of_not_mem_keys hm]
    simp

theorem lookup_map_upd_ne {α : Type} {l : List (String × α)} {k k' : String} (v : α)
    (h : k' ≠ k) :
    (l.map (fun p => if p.1 = k then (k, v) else p)).lookup k' = l.lookup k' := by
  induction l with
  | nil => rfl
  | cons p rest ih =>
      obtain ⟨pk, pv⟩ := p
      by_cases hp : pk = k
      · subst hp
        rw [List.map_cons, show (if (pk, pv).1 = pk then (pk, v) else (pk, pv)) = (pk, v)
              from if_pos rfl,
            List.lookup_cons, List.lookup_cons, show (k' == pk) = false from beq_eq_false_iff_ne.mpr h]
        exact ih
      · rw [List.map_cons, show (if (pk, pv).1 = k then (k, v) else (pk, pv)) = (pk, pv)
              from if_neg hp,
            List.lookup_cons, List.lookup_cons]
        by_cases hq : k' = pk
        · rw [show (k' == pk) = true from beq_iff_eq.mpr hq]
        · rw [show (k' == pk) = false from beq_eq_false_iff_ne.mpr hq]
          exact ih

theorem dictSet_lookup_ne {α : Type} (l : List (String × α)) {k k' : String} (v : α)
    (h : k' ≠ k) : (dictSet l k v).lookup k' = l.lookup k' := by
  unfold dictSet
  by_cases hm : k ∈ l.map Prod.fst
  · rw [if_pos hm]
    exact lookup_map_upd_ne v h
  · rw [if_neg hm, List.lookup_append]
    cases hl : l.lookup k' with
    | some b => rfl
    | none =>
        rw [List.lookup_cons, show (k' == k) = false from beq_eq_false_iff_ne.mpr h]
        rfl

theorem setAdd_self_mem (l : List String) (x : String) : x ∈ setAdd l x := by
  unfold setAdd
  by_cases hx : x ∈ l
  · rwa [if_pos hx]
  · rw [if_neg hx]; simp

theorem writeHeadersFold_append (routing : List (String × String))
    (l1 l2 : List (String × Option String))
    (a : List (String × List (String × Option String))) :
    writeHeadersFold routing (l1 ++ l2) a =
      match writeHeadersFold routing l1 a with
      | .error e => .error e
      | .ok b => writeHeadersFold routing l2 b := by
  induction l1 generalizing a with
  | nil => rfl
  | cons p rest ih =>
      simp only [List.cons_append, writeHeadersFold]
      cases writeHeadersStep routing a p with
      | error e => rfl
      | ok a' => exact ih a'

theorem writeHeadersFold_keeps (routing : List (String × String))
    (o : String) (w : Option String)
    (post : List (String × Option String))
    (hpost : ∀ q ∈ post, pyStartsWith q.1 "DEV_" = true →
        q.1 ∉ routing.map Prod.fst → devHeaderName q.1 ≠ devHeaderName o) :
    ∀ (a tbl : List (String × List (String × Option String)))
      (entries : List (String × Option String)),
      a.lookup (devHeaderName o) = some entries → (o, w) ∈ entries →
      writeHeadersFold routing post a = .ok tbl →
      ∃ entries', tbl.lookup (devHeaderName o) = some entries' ∧ (o, w) ∈ entries' := by
  induction post with
  | nil =>
      intro a tbl entries hlk hmem hfold
      injection hfold with hfold
      subst hfold
      exact ⟨entries, hlk, hmem⟩
  | cons q rest ih =>
      intro a tbl entries hlk hmem hfold
      have hrest : ∀ q' ∈ rest, pyStartsWith q'.1 "DEV_" = true →
          q'.1 ∉ routing.map Prod.fst → devHeaderName q'.1 ≠ devHeaderName o :=
        fun q' hq' => hpost q' (List.mem_cons_of_mem _ hq')
      rw [writeHeadersFold] at hfold
      cases hstep : writeHeadersStep routing a q with
      | error e => rw [hstep] at hfold; exact Except.noConfusion hfold
      | ok a' =>
          rw [hstep] at hfold
          unfold writeHeadersStep at hstep
          by_cases hdev : q.1 ∉ routing.map Prod.fst ∧ pyStartsWith q.1 "DEV_" = true
          · rw [if_pos hdev] at hstep
            injection hstep with hstep
            subst hstep
            have hne : devHeaderName o ≠ devHeaderName q.1 :=
              Ne.symm (hpost q (by simp) hdev.2 hdev.1)
            refine ih hrest _ tbl entries ?_ hmem hfold
            rw [dictSet_lookup_ne _ _ hne]
            exact hlk
          · rw [if_neg hdev] at hstep
            split at hstep
            · exact Except.noConfusion hstep
            · next fn hr =>
                split at hstep
                · exact Except.noConfusion hstep
                · next es ha =>
                    injection hstep with hstep
                    subst hstep
                    by_cases hfn : fn = devHeaderName o
                    · subst hfn
                      have hes : es = entries := by
                        rw [hlk] at ha; injection ha with ha; exact ha.symm
                      subst hes
                      refine ih hrest _ tbl (es ++ [q]) ?_ (List.mem_append_left _ hmem) hfold
                      exact dictSet_lookup_self _ _ _
                    · refine ih hrest _ tbl entries ?_ hmem hfold
                      rw [dictSet_lookup_ne _ _ (fun hh => hfn hh.symm)]
                      exact hlk

/-- Counterexample for C8: with `device foo` (inserting `DEV_FOO = '1'`)
followed by the manual directive `options DEV_foo`, both options are
`DEV_`-prefixed, absent from the routing table, and derive the same header
name `opt_foo.h`; the later one **replaces** the header's entry list, so the
generated `opt_foo.h` is exactly `#define DEV_foo` and does not contain
`#define DEV_FOO 1` — refuting the claim for this configuration. -/
theorem C8_counterexample :
    (initKernelConfig "cfg").applyDirectives [("device", "foo"), ("options", "DEV_foo")] =
        .ok kDevFooShadow ∧
    writeHeadersTable routing0 kDevFooShadow.options = .ok shadowTbl ∧
    shadowTbl.lookup "opt_foo.h" = some [("DEV_foo", none)] ∧
    renderHeader [("DEV_foo", none)] = "#define DEV_foo\n" :=
  ⟨rfl, rfl, rfl, rfl⟩

/-- C8 amended: `device X` inserts the synthetic option `DEV_<X uppercased>`
with value `'1'` into the options mapping and adds `X` to the device set;
when writing headers, a `DEV_`-prefixed option absent from the routing table
is routed to the header `opt_<suffix lowercased>.h`, and that header's
entries contain its `#define` line provided no later `DEV_`-prefixed
unrouted option derives the same header name (such a later option replaces
the header's contents — see the counterexample). -/
theorem C8_device_option_and_header :
    (∀ (K K' : KernelConfig) (v : String),
        K.applyDirective "device" v = .ok K' →
        K'.options.lookup ("DEV_" ++ pyUpper v) = some (some "1") ∧ v ∈ K'.devices) ∧
    (∀ (routing : List (String × String)) (pre post : List (String × Option String))
        (o : String) (w : Option String)
        (tbl : List (String × List (String × Option String))),
        pyStartsWith o "DEV_" = true →
        o ∉ routing.map Prod.fst →
        (∀ q ∈ post, pyStartsWith q.1 "DEV_" = true →
            q.1 ∉ routing.map Prod.fst → devHeaderName q.1 ≠ devHeaderName o) →
        writeHeadersTable routing (pre ++ (o, w) :: post) = .ok tbl →
        ∃ entries, tbl.lookup (devHeaderName o) = some entries ∧ (o, w) ∈ entries ∧
          renderDefine (o, w) ∈ entries.map renderDefine) := by
  constructor
  · intro K K' v h
    unfold KernelConfig.applyDirective at h
    injection h with h
    subst h
    exact ⟨dictSet_lookup_self _ _ _, setAdd_self_mem _ _⟩
  · intro routing pre post o w tbl hdev hnr hpost hrun
    unfold writeHeadersTable at hrun
    rw [writeHeadersFold_append] at hrun
    cases hpre : writeHeadersFold routing pre (optfilesInit routing) with
    | error e => rw [hpre] at hrun; exact Except.noConfusion hrun
    | ok a1 =>
        rw [hpre] at hrun
        simp only [writeHeadersFold] at hrun
        cases hstep : writeHeadersStep routing a1 (o, w) with
        | error e => rw [hstep] at hrun; exact Except.noConfusion hrun
        | ok a2 =>
            rw [hstep] at hrun
            unfold writeHeadersStep at hstep
            rw [if_pos ⟨hnr, hdev⟩] at hstep
            injection hstep with hstep
            subst hstep
            obtain ⟨entries', h1, h2⟩ :=
              writeHeadersFold_keeps routing o w post hpost _ tbl [(o, w)]
                (dictSet_lookup_self _ _ _) (by simp) hrun
            exact ⟨entries', h1, h2, List.mem_map_of_mem _ h2⟩

/-- Witness for C8's amended statement: `device foo` alone, against the
seeded routing table, puts `#define DEV_FOO 1` into `opt_foo.h`. -/
theorem C8_device_option_and_header_witness :
    (kDevFoo.options.lookup "DEV_FOO" = some (some "1") ∧ "foo" ∈ kDevFoo.devices) ∧
    (∃ entries, devTbl.lookup (devHeaderName "DEV_FOO") = some entries ∧
        ("DEV_FOO", some "1") ∈ entries ∧
        renderDefine ("DEV_FOO", some "1") ∈ entries.map renderDefine) := by
  constructor
  · exact C8_device_option_and_header.1 (initKernelConfig "cfg") kDevFoo "foo" rfl
  · exact C8_device_option_and_header.2 routing0 [("MAXUSERS", some "0")] [] "DEV_FOO"
      (some "1") devTbl (by decide) (by decide) (by simp) rfl

theorem strAppendEmpty (s : String) : s ++ "" = s := by
  obtain ⟨d⟩ := s
  show String.mk (d ++ []) = String.mk d
  rw [List.append_nil]

theorem strEmptyAppend (s : String) : "" ++ s = s := by
  obtain ⟨d⟩ := s
  rfl

theorem strAppendAssoc (a b c : String) : a ++ b ++ c = a ++ (b ++ c) := by
  obtain ⟨x⟩ := a
  obtain ⟨y⟩ := b
  obtain ⟨z⟩ := c
  show String.mk (x ++ y ++ z) = String.mk (x ++ (y ++ z))
  rw [List.append_assoc]

/-- C9: a configured, non-profiling entry with a falsy compile recipe and a
filename containing no dot makes the extension dispatch of `generate_rules`
fail with the untyped `IndexError` from `rsplit('.', 1)[1]` — not the typed
`ConfigError` used for unrecognized extensions; with a dot present the
dispatch never raises `IndexError`. -/
theorem C9_dotless_indexerror (K : KernelConfig)
    (patterns : List (File → Option BuildEdge)) (st : GenState) (f : File)
    (hconf : f.configured K = some true) (hprof : f.profiling = false)
    (hcw : pyTruthy f.compile_with = false) :
    (strHasChar f.filename '.' = false →
        processFile K patterns st f = .error .indexError) ∧
    (strHasChar f.filename '.' = true →
        processFile K patterns st f ≠ .error .indexError) := by
  constructor
  · intro hdot
    unfold processFile
    rw [hconf]
    simp only [hprof, if_false, Bool.false_eq_true]
    rw [if_pos hcw]
    unfold extOf
    rw [hdot]
    rfl
  · intro hdot
    unfold processFile
    rw [hconf]
    simp only [hprof, if_false, Bool.false_eq_true]
    rw [if_pos hcw]
    unfold extOf
    rw [hdot]
    simp only [if_true]
    split_ifs <;> simp

/-- Witness for C9 at concrete inputs: `locore standard` (no dot) raises
`IndexError`; `foo.c standard` does not. -/
theorem C9_dotless_indexerror_witness :
    processFile (initKernelConfig "cfg") [] initGenState fNoDot = .error .indexError ∧
    processFile (initKernelConfig "cfg") [] initGenState fFooC ≠ .error .indexError := by
  constructor
  · exact (C9_dotless_indexerror (initKernelConfig "cfg") [] initGenState fNoDot
      rfl rfl rfl).1 (by decide)
  · exact (C9_dotless_indexerror (initKernelConfig "cfg") [] initGenState fFooC
      rfl rfl rfl).2 (by decide)

/-- Counterexample for C7: the entry `foo.c standard` yields the normal
compile edge `foo.o`, and with empty before-depends and empty implicit
dependencies its rendered line is `build foo.o: cc $S/foo.c | ` — the
implicit-inputs separator is emitted even though the list is empty, unlike
the claimed format where each bracketed section appears only when its list
is non-empty. -/
theorem C7_counterexample :
    processFiles (initKernelConfig "cfg") [] [fFooC] initGenState =
      .ok { initGenState with builds := [eFooO], objs := ["locore.o", "foo.o"] } ∧
    renderNormalEdge [] eFooO = "build foo.o: cc $S/foo.c | \n" ∧
    specRenderEdge ([] ++ eFooO.implicit_deps) eFooO = "build foo.o: cc $S/foo.c\n" ∧
    renderNormalEdge [] eFooO ≠ specRenderEdge ([] ++ eFooO.implicit_deps) eFooO := by
  refine ⟨rfl, rfl, rfl, ?_⟩
  decide

/-- C7 amended: early-build edges are rendered exactly in the claimed
format; normal-build edges are too **whenever the combined
before-depends-plus-implicit list is non-empty**, but when that list is
empty the line still carries a trailing ` | ` separator (the implicit
section is written unconditionally). -/
theorem C7_edge_line_format :
    (∀ e : BuildEdge, renderEarlyEdge e = specRenderEdge e.implicit_deps e) ∧
    (∀ (bd : List String) (e : BuildEdge), (bd ++ e.implicit_deps).isEmpty = false →
        renderNormalEdge bd e = specRenderEdge (bd ++ e.implicit_deps) e) ∧
    (∀ (bd : List String) (e : BuildEdge), (bd ++ e.implicit_deps).isEmpty = true →
        renderNormalEdge bd e =
          "build " ++ e.output
            ++ (if e.implicit_outs.isEmpty then "" else " | " ++ joinSp e.implicit_outs)
            ++ ": " ++ e.rule ++ " " ++ joinSp e.deps ++ " | "
            ++ (if e.order_deps.isEmpty then "" else " || " ++ joinSp e.order_deps)
            ++ "\n" ++ renderEdgeVars e.varOverrides) := by
  refine ⟨fun e => rfl, fun bd e h => ?_, fun bd e h => ?_⟩
  · unfold renderNormalEdge specRenderEdge
    rw [h]
    simp only [Bool.false_eq_true, if_false]
    simp [strAppendAssoc]
  · unfold renderNormalEdge
    rw [List.isEmpty_iff.mp h]
    simp [strAppendAssoc, strAppendEmpty, strEmptyAppend, joinSp]

/-- Witness for C7's amended statement at concrete edges. -/
theorem C7_edge_line_format_witness :
    renderNormalEdge ["bus_if.h"] eFooO = specRenderEdge (["bus_if.h"] ++ eFooO.implicit_deps) eFooO ∧
    renderNormalEdge [] eFooO =
      "build " ++ eFooO.output
        ++ (if eFooO.implicit_outs.isEmpty then "" else " | " ++ joinSp eFooO.implicit_outs)
        ++ ": " ++ eFooO.rule ++ " " ++ joinSp eFooO.deps ++ " | "
        ++ (if eFooO.order_deps.isEmpty then "" else " || " ++ joinSp eFooO.order_deps)
        ++ "\n" ++ renderEdgeVars eFooO.varOverrides := by
  constructor
  · exact C7_edge_line_format.2.1 ["bus_if.h"] eFooO (by decide)
  · exact C7_edge_line_format.2.2 [] eFooO (by decide)

theorem placeBuild_fields (st : GenState) (f : File) (b : BuildEdge) :
    (placeBuild st f b).rules = st.rules ∧
    (placeBuild st f b).rule_counter = st.rule_counter ∧
    (placeBuild st f b).before_depends =
      (if f.before_depend then st.before_depends ++ [b.output] else st.before_depends) ∧
    (placeBuild st f b).early_builds =
      (if f.before_depend then st.early_builds ++ [b] else st.early_builds) ∧
    (placeBuild st f b).builds =
      (if f.before_depend then st.builds else st.builds ++ [b]) := by
  unfold placeBuild
  by_cases hbd : f.before_depend <;> by_cases hobj : f.obj <;> simp [hbd, hobj]

theorem lookup_append_some {α : Type} {l l2 : List (String × α)} {k : String} {v : α}
    (h : l.lookup k = some v) : (l ++ l2).lookup k = some v := by
  rw [List.lookup_append, h]
  rfl

theorem not_mem_keys_of_lookup_none {α : Type} {l : List (String × α)} {k : String}
    (h : l.lookup k = none) : k ∉ l.map Prod.fst := by
  intro hmem
  rcases List.mem_map.mp hmem with ⟨p, hp, hpk⟩
  have hne := List.lookup_eq_none_iff.mp h p hp
  simp [bne, hpk] at hne

theorem placeBuild_mem_self (st : GenState) (f : File) (b : BuildEdge) :
    b ∈ (placeBuild st f b).early_builds ∨ b ∈ (placeBuild st f b).builds := by
  obtain ⟨_, _, _, hef, hbf⟩ := placeBuild_fields st f b
  by_cases hbd : f.before_depend
  · left; rw [hef, if_pos hbd]; simp
  · right; rw [hbf, if_neg hbd]; simp

theorem placeBuild_before_inv (st : GenState) (f : File) (b : BuildEdge)
    (hb : BeforeInv st) : BeforeInv (placeBuild st f b) := by
  obtain ⟨_, _, hbdf, hef, _⟩ := placeBuild_fields st f b
  intro n hn
  rw [hbdf] at hn
  rw [hef]
  by_cases hbd : f.before_depend
  · rw [if_pos hbd] at hn ⊢
    rcases List.mem_append.mp hn with h1 | h1
    · rcases hb n h1 with ⟨e, he, heo⟩
      exact ⟨e, List.mem_append_left _ he, heo⟩
    · exact ⟨b, List.mem_append_right _ (by simp),
        (List.mem_singleton.mp h1).symm⟩
  · rw [if_neg hbd] at hn ⊢
    exact hb n hn

theorem placeBuild_early_append (st : GenState) (f : File) (b : BuildEdge) :
    ∃ es, (placeBuild st f b).early_builds = st.early_builds ++ es := by
  obtain ⟨_, _, _, hef, _⟩ := placeBuild_fields st f b
  by_cases hbd : f.before_depend
  · exact ⟨[b], by rw [hef, if_pos hbd]⟩
  · exact ⟨[], by rw [hef, if_neg hbd, List.append_nil]⟩

theorem placeBuild_builds_append (st : GenState) (f : File) (b : BuildEdge) :
    ∃ bs, (placeBuild st f b).builds = st.builds ++ bs := by
  obtain ⟨_, _, _, _, hbf⟩ := placeBuild_fields st f b
  by_cases hbd : f.before_depend
  · exact ⟨[], by rw [hbf, if_pos hbd, List.append_nil]⟩
  · exact ⟨[b], by rw [hbf, if_neg hbd]⟩

theorem processFile_step (K : KernelConfig)
    (patterns : List (File → Option BuildEdge)) (st : GenState) (f : File)
    (st' : GenState) (h : processFile K patterns st f = .ok st') :
    ((st'.rules = st.rules ∧ st'.rule_counter = st.rule_counter) ∨
      (∃ cmd, st.rules.lookup cmd = none ∧
        st'.rules = st.rules ++ [(cmd, "rule" ++ toString st.rule_counter)] ∧
        st'.rule_counter = st.rule_counter + 1)) ∧
    (∃ es, st'.early_builds = st.early_builds ++ es) ∧
    (∃ bs, st'.builds = st.builds ++ bs) ∧
    (BeforeInv st → BeforeInv st') ∧
    (takesFallback K patterns f →
      ∃ e, (e ∈ st'.early_builds ∨ e ∈ st'.builds) ∧ e.output = f.filename ∧
        st'.rules.lookup (rewriteRecipe (pyStr f.compile_with)) = some e.rule) := by
  unfold processFile at h
  split at h
  · exact Except.noConfusion h
  · next hconf =>
      injection h with h
      subst h
      refine ⟨Or.inl ⟨rfl, rfl⟩, ⟨[], (List.append_nil _).symm⟩,
        ⟨[], (List.append_nil _).symm⟩, fun hb => hb, fun hfb => ?_⟩
      obtain ⟨h1, _, _, _⟩ := hfb
      rw [hconf] at h1
      simp at h1
  · next hconf =>
      split at h
      · next hprof =>
          injection h with h
          subst h
          refine ⟨Or.inl ⟨rfl, rfl⟩, ⟨[], (List.append_nil _).symm⟩,
            ⟨[], (List.append_nil _).symm⟩, fun hb => hb, fun hfb => ?_⟩
          obtain ⟨_, h2, _, _⟩ := hfb
          rw [h2] at hprof
          exact absurd hprof (by simp)
      · next hprof =>
          split at h
          · next hcw =>
              split at h
              · exact Except.noConfusion h
              · next ext hext =>
                  split at h
                  · injection h with h
                    subst h
                    refine ⟨Or.inl ⟨rfl, rfl⟩, ⟨[], (List.append_nil _).symm⟩,
                      ⟨_, rfl⟩, fun hb => hb, fun hfb => ?_⟩
                    obtain ⟨_, _, h3, _⟩ := hfb
                    rw [h3] at hcw
                    exact absurd hcw (by simp)
                  · split at h
                    · injection h with h
                      subst h
                      refine ⟨Or.inl ⟨rfl, rfl⟩, ⟨_, rfl⟩, ⟨_, rfl⟩,
                        fun hb => ?_, fun hfb => ?_⟩
                      · intro n hn
                        rcases List.mem_append.mp hn with h1 | h1
                        · rcases hb n h1 with ⟨e, he, heo⟩
                          exact ⟨e, List.mem_append_left _ he, heo⟩
                        · have h1' : n = strDropLast (pyBasename f.filename) ++ "h" := by
                            simpa using h1
                          exact ⟨⟨strDropLast (pyBasename f.filename) ++ "h", [], "awk",
                            ["$S/tools/makeobjops.awk", "$S/" ++ f.filename], [], [], [("args", "-h")]⟩,
                            List.mem_append_right _ (by simp), h1'.symm⟩
                      · obtain ⟨_, _, h3, _⟩ := hfb
                        rw [h3] at hcw
                        exact absurd hcw (by simp)
                    · split at h
                      · injection h with h
                        subst h
                        refine ⟨Or.inl ⟨rfl, rfl⟩, ⟨[], (List.append_nil _).symm⟩,
                          ⟨_, rfl⟩, fun hb => hb, fun hfb => ?_⟩
                        obtain ⟨_, _, h3, _⟩ := hfb
                        rw [h3] at hcw
                        exact absurd hcw (by simp)
                      · exact Except.noConfusion h
          · next hcw =>
              split at h
              · next build hpat =>
                  injection h with h
                  subst h
                  obtain ⟨hr, hc2, _, _, _⟩ := placeBuild_fields st f build
                  refine ⟨Or.inl ⟨hr, hc2⟩, placeBuild_early_append st f build,
                    placeBuild_builds_append st f build,
                    placeBuild_before_inv st f build, fun hfb => ?_⟩
                  obtain ⟨_, _, _, h4⟩ := hfb
                  rw [h4] at hpat
                  exact Option.noConfusion hpat
              · next hpat =>
                  split at h
                  · next rule_name hlk =>
                      injection h with h
                      subst h
                      obtain ⟨hr, hc2, _, _, _⟩ :=
                        placeBuild_fields st f ⟨f.filename, [], rule_name, f.dependencies, [], [], []⟩
                      refine ⟨Or.inl ⟨hr, hc2⟩, placeBuild_early_append _ _ _,
                        placeBuild_builds_append _ _ _, placeBuild_before_inv _ _ _,
                        fun hfb => ?_⟩
                      exact ⟨⟨f.filename, [], rule_name, f.dependencies, [], [], []⟩,
                        placeBuild_mem_self _ _ _, rfl, by rw [hr]; exact hlk⟩
                  · next hlk =>
                      injection h with h
                      subst h
                      obtain ⟨hr, hc2, _, _, _⟩ :=
                        placeBuild_fields
                          { st with
                              rules := st.rules ++
                                [(rewriteRecipe (pyStr f.compile_with), "rule" ++ toString st.rule_counter)],
                              rule_counter := st.rule_counter + 1 }
                          f ⟨f.filename, [], "rule" ++ toString st.rule_counter, f.dependencies, [], [], []⟩
                      refine ⟨Or.inr ⟨rewriteRecipe (pyStr f.compile_with), hlk, by rw [hr], by rw [hc2]⟩,
                        placeBuild_early_append
                          { st with
                              rules := st.rules ++
                                [(rewriteRecipe (pyStr f.compile_with), "rule" ++ toString st.rule_counter)],
                              rule_counter := st.rule_counter + 1 }
                          f ⟨f.filename, [], "rule" ++ toString st.rule_counter, f.dependencies, [], [], []⟩,
                        placeBuild_builds_append
                          { st with
                              rules := st.rules ++
                                [(rewriteRecipe (pyStr f.compile_with), "rule" ++ toString st.rule_counter)],
                              rule_counter := st.rule_counter + 1 }
                          f ⟨f.filename, [], "rule" ++ toString st.rule_counter, f.dependencies, [], [], []⟩,
                        fun hb =>
                          placeBuild_before_inv
                            { st with
                                rules := st.rules ++
                                  [(rewriteRecipe (pyStr f.compile_with), "rule" ++ toString st.rule_counter)],
                                rule_counter := st.rule_counter + 1 }
                            f ⟨f.filename, [], "rule" ++ toString st.rule_counter, f.dependencies, [], [], []⟩ hb,
                        fun hfb => ?_⟩
                      refine ⟨⟨f.filename, [], "rule" ++ toString st.rule_counter, f.dependencies, [], [], []⟩,
                        placeBuild_mem_self _ _ _, rfl, ?_⟩
                      rw [hr, List.lookup_append, hlk]
                      simp

theorem autoNames_succ (n : Nat) :
    autoNames (n + 1) = autoNames n ++ ["rule" ++ toString n] := by
  unfold autoNames
  rw [List.range_succ, List.map_append]
  rfl

theorem processFile_rulesInv (K : KernelConfig)
    (patterns : List (File → Option BuildEdge)) (st : GenState) (f : File)
    (st' : GenState) (h : processFile K patterns st f = .ok st')
    (hi : RulesInv st) : RulesInv st' := by
  rcases (processFile_step K patterns st f st' h).1 with ⟨hr, hc⟩ | ⟨cmd, hlk, hr, hc⟩
  · unfold RulesInv at hi ⊢
    rw [hr, hc]
    exact hi
  · obtain ⟨h1, h2, h3⟩ := hi
    refine ⟨?_, ?_, ?_⟩
    · rw [hr, hc, List.length_append, h1]
      rfl
    · rw [hr, h1, List.map_append, h2]
      show autoNames st.rules.length ++ ["rule" ++ toString st.rules.length] =
        autoNames (st.rules ++ [(cmd, "rule" ++ toString st.rules.length)]).length
      rw [← autoNames_succ]
      congr 1
      simp
    · rw [hr, List.map_append]
      simp [List.nodup_append, h3, not_mem_keys_of_lookup_none hlk]

theorem processFiles_props (K : KernelConfig)
    (patterns : List (File → Option BuildEdge)) :
    ∀ (files : List File) (st st' : GenState),
      processFiles K patterns files st = .ok st' →
      ((∀ cmd nm, st.rules.lookup cmd = some nm → st'.rules.lookup cmd = some nm) ∧
        (∀ e, e ∈ st.early_builds → e ∈ st'.early_builds) ∧
        (∀ e, e ∈ st.builds → e ∈ st'.builds)) ∧
      (RulesInv st → RulesInv st') ∧
      (BeforeInv st → BeforeInv st') ∧
      (∀ f ∈ files, takesFallback K patterns f →
        ∃ e, (e ∈ st'.early_builds ∨ e ∈ st'.builds) ∧ e.output = f.filename ∧
          st'.rules.lookup (rewriteRecipe (pyStr f.compile_with)) = some e.rule) := by
  intro files
  induction files with
  | nil =>
      intro st st' h
      injection h with h
      subst h
      exact ⟨⟨fun _ _ hh => hh, fun _ hh => hh, fun _ hh => hh⟩,
        fun hi => hi, fun hb => hb, fun f hf => absurd hf (List.not_mem_nil f)⟩
  | cons f rest ih =>
      intro st st' h
      rw [processFiles] at h
      cases hstep : processFile K patterns st f with
      | error e => rw [hstep] at h; exact Except.noConfusion h
      | ok st1 =>
          rw [hstep] at h
          obtain ⟨hpersist, hinv, hbefore, hlink⟩ := ih st1 st' h
          obtain ⟨hrules, hearly, hbuilds, hbinv, hfall⟩ :=
            processFile_step K patterns st f st1 hstep
          refine ⟨⟨?_, ?_, ?_⟩, ?_, ?_, ?_⟩
          · intro cmd nm hcmd
            apply hpersist.1
            rcases hrules with ⟨hr, _⟩ | ⟨cmd', _, hr, _⟩
            · rw [hr]; exact hcmd
            · rw [hr]; exact lookup_append_some hcmd
          · intro e he
            apply hpersist.2.1
            obtain ⟨es, hes⟩ := hearly
            rw [hes]
            exact List.mem_append_left _ he
          · intro e he
            apply hpersist.2.2
            obtain ⟨bs, hbs⟩ := hbuilds
            rw [hbs]
            exact List.mem_append_left _ he
          · exact fun hi => hinv (processFile_rulesInv K patterns st f st1 hstep hi)
          · exact fun hb => hbefore (hbinv hb)
          · intro g hg hfb
            rcases List.mem_cons.mp hg with hgf | hgrest
            · subst hgf
              obtain ⟨e, hmem, hout, hlkp⟩ := hfall hfb
              refine ⟨e, ?_, hout, hpersist.1 _ _ hlkp⟩
              rcases hmem with hm | hm
              · exact Or.inl (hpersist.2.1 e hm)
              · exact Or.inr (hpersist.2.2 e hm)
            · exact hlink g hgrest hfb

theorem initGenState_rulesInv : RulesInv initGenState :=
  ⟨rfl, rfl, List.nodup_nil⟩

theorem initGenState_beforeInv : BeforeInv initGenState :=
  fun n hn => absurd hn (List.not_mem_nil n)

theorem exceptBind_ok_elim {α β : Type} {x : Except PyErr α} {f : α → Except PyErr β}
    {b : β} (h : Except.bind x f = .ok b) : ∃ a, x = .ok a ∧ f a = .ok b := by
  cases x with
  | error e => exact Except.noConfusion h
  | ok a => exact ⟨a, rfl, h⟩

theorem exceptMap_ok_elim {α β : Type} {x : Except PyErr α} {g : α → β} {b : β}
    (h : Except.map g x = .ok b) : ∃ a, x = .ok a ∧ g a = b := by
  cases x with
  | error e => exact Except.noConfusion h
  | ok a => exact ⟨a, rfl, Except.ok.inj h⟩

theorem generateRules_ok_elim (K : KernelConfig) (files : List File)
    (patterns : List (File → Option BuildEdge)) (vars : List (String × String))
    (st : GenState) (out : String)
    (h : generateRules K files patterns vars = .ok (st, out)) :
    ∃ (st0 : GenState) (sv cf : String) (vrest : List (String × String)),
      processFiles K patterns files initGenState = .ok st0 ∧
      st = { st0 with objs := st0.objs ++ ["hack.pico"] } ∧
      out = "MACHINE = " ++ pyStr K.machine ++ "\n"
        ++ "S = " ++ sv ++ "\n"
        ++ "CFLAGS = " ++ cf ++ "\n"
        ++ String.join (vrest.map renderVarLine)
        ++ "\n"
        ++ String.join (DEFAULT_RULE_DEFINITIONS.map renderRuleBlock)
        ++ "rule newvers\n"
        ++ "  command = MAKE=./versmake.sh sh $S/conf/newvers.sh " ++ pyStr K.ident ++ "\n"
        ++ String.join (st.rules.map renderAdhocRule)
        ++ "\n"
        ++ String.join (st.early_builds.map renderEarlyEdge)
        ++ String.join (st.builds.map (renderNormalEdge st.before_depends))
        ++ trailerText K st := by
  unfold generateRules at h
  obtain ⟨st0, hrun, h2⟩ := exceptBind_ok_elim h
  obtain ⟨outv, hser, h3⟩ := exceptMap_ok_elim h2
  have hst : st = { st0 with objs := st0.objs ++ ["hack.pico"] } :=
    (congrArg Prod.fst h3).symm
  have hout : out = outv := (congrArg Prod.snd h3).symm
  unfold serialize at hser
  split at hser
  · exact Except.noConfusion hser
  · next sp hpop1 =>
      split at hser
      · exact Except.noConfusion hser
      · next cp hpop2 =>
          injection hser with hser
          subst hst
          exact ⟨st0, sp.1, cp.1, cp.2, hrun, rfl, by rw [hout, ← hser]⟩

/-- C2: if two manifest entries take the opaque-recipe fallback and their
recipes rewrite to byte-identical command text, the synthesizer interns one
shared auto-named rule: the final table's command texts are pairwise
distinct (so the serializer, which emits one declaration per table entry,
never emits a duplicate), the names are the sequential `rule0`, `rule1`,
..., the output contains the table's declarations exactly once, and every
fallback entry's edge carries the rule name the table associates to its
rewritten command — so byte-identical rewritten text means the same
looked-up name on both edges. -/
theorem C2_rule_dedup (K : KernelConfig) (files : List File)
    (patterns : List (File → Option BuildEdge)) (vars : List (String × String))
    (st : GenState) (out : String)
    (h : generateRules K files patterns vars = .ok (st, out)) :
    (st.rules.map Prod.fst).Nodup ∧
    st.rules.map Prod.snd = autoNames st.rules.length ∧
    (∃ pre post, out = pre ++ String.join (st.rules.map renderAdhocRule) ++ post) ∧
    (∀ f ∈ files, takesFallback K patterns f →
      ∃ e, (e ∈ st.early_builds ∨ e ∈ st.builds) ∧ e.output = f.filename ∧
        st.rules.lookup (rewriteRecipe (pyStr f.compile_with)) = some e.rule) := by
  obtain ⟨st0, sv, cf, vrest, hrun, hst, hout⟩ :=
    generateRules_ok_elim K files patterns vars st out h
  obtain ⟨_, hinv, _, hlink⟩ := processFiles_props K patterns files initGenState st0 hrun
  have hri : RulesInv st0 := hinv initGenState_rulesInv
  have hrules_eq : st.rules = st0.rules := by rw [hst]
  have hearly_eq : st.early_builds = st0.early_builds := by rw [hst]
  have hbuilds_eq : st.builds = st0.builds := by rw [hst]
  refine ⟨by rw [hrules_eq]; exact hri.2.2, by rw [hrules_eq]; exact hri.2.1, ?_, ?_⟩
  · refine ⟨"MACHINE = " ++ pyStr K.machine ++ "\n"
        ++ "S = " ++ sv ++ "\n"
        ++ "CFLAGS = " ++ cf ++ "\n"
        ++ String.join (vrest.map renderVarLine)
        ++ "\n"
        ++ String.join (DEFAULT_RULE_DEFINITIONS.map renderRuleBlock)
        ++ "rule newvers\n"
        ++ "  command = MAKE=./versmake.sh sh $S/conf/newvers.sh " ++ pyStr K.ident ++ "\n",
      "\n"
        ++ String.join (st.early_builds.map renderEarlyEdge)
        ++ String.join (st.builds.map (renderNormalEdge st.before_depends))
        ++ trailerText K st, ?_⟩
    rw [hout]
    simp [strAppendAssoc]
  · intro f hf hfb
    obtain ⟨e, hm, ho, hl⟩ := hlink f hf hfb
    refine ⟨e, ?_, ho, by rw [hrules_eq]; exact hl⟩
    rcases hm with hm | hm
    · exact Or.inl (by rw [hearly_eq]; exact hm)
    · exact Or.inr (by rw [hbuilds_eq]; exact hm)

/-- Witness for C2: two entries with the byte-identical custom recipe
`${CC} -c -DFANCY ${.IMPSRC}` both link to the single interned rule. -/
theorem C2_rule_dedup_witness :
    ((genResW.1.rules.map Prod.fst).Nodup) ∧
    (∃ e, (e ∈ genResW.1.early_builds ∨ e ∈ genResW.1.builds) ∧ e.output = fCw1.filename ∧
        genResW.1.rules.lookup (rewriteRecipe (pyStr fCw1.compile_with)) = some e.rule) ∧
    (∃ e, (e ∈ genResW.1.early_builds ∨ e ∈ genResW.1.builds) ∧ e.output = fCw2.filename ∧
        genResW.1.rules.lookup (rewriteRecipe (pyStr fCw2.compile_with)) = some e.rule) := by
  have h := C2_rule_dedup KW filesW [] varsS genResW.1 genResW.2 (by rfl)
  exact ⟨h.1, h.2.2.2 fCw1 (by simp [filesW]) ⟨rfl, rfl, rfl, rfl⟩,
    h.2.2.2 fCw2 (by simp [filesW]) ⟨rfl, rfl, rfl, rfl⟩⟩

/-- C3: every name placed into the before-depends set is the output of an
edge in the early-build list, and the generated text consists of a header
followed by every early-build edge line, then every normal-build edge line
— each normal line's implicit-dependency section holding the entire
before-depends set prepended to the edge's own implicit dependencies —
then the trailing edges; early edges are thus emitted textually before all
normal edges. -/
theorem C3_before_depends (K : KernelConfig) (files : List File)
    (patterns : List (File → Option BuildEdge)) (vars : List (String × String))
    (st : GenState) (out : String)
    (h : generateRules K files patterns vars = .ok (st, out)) :
    (∀ n ∈ st.before_depends, ∃ e ∈ st.early_builds, e.output = n) ∧
    ∃ header,
      out = header
        ++ String.join (st.early_builds.map renderEarlyEdge)
        ++ String.join (st.builds.map (fun e =>
            "build " ++ e.output
              ++ (if e.implicit_outs.isEmpty then "" else " | " ++ joinSp e.implicit_outs)
              ++ ": " ++ e.rule ++ " " ++ joinSp e.deps
              ++ " | " ++ joinSp (st.before_depends ++ e.implicit_deps)
              ++ (if e.order_deps.isEmpty then "" else " || " ++ joinSp e.order_deps)
              ++ "\n" ++ renderEdgeVars e.varOverrides))
        ++ trailerText K st := by
  obtain ⟨st0, sv, cf, vrest, hrun, hst, hout⟩ :=
    generateRules_ok_elim K files patterns vars st out h
  obtain ⟨_, _, hbefore, _⟩ := processFiles_props K patterns files initGenState st0 hrun
  have hb : BeforeInv st0 := hbefore initGenState_beforeInv
  subst hst
  refine ⟨fun n hn => hb n hn, ?_⟩
  refine ⟨"MACHINE = " ++ pyStr K.machine ++ "\n"
        ++ "S = " ++ sv ++ "\n"
        ++ "CFLAGS = " ++ cf ++ "\n"
        ++ String.join (vrest.map renderVarLine)
        ++ "\n"
        ++ String.join (DEFAULT_RULE_DEFINITIONS.map renderRuleBlock)
        ++ "rule newvers\n"
        ++ "  command = MAKE=./versmake.sh sh $S/conf/newvers.sh " ++ pyStr K.ident ++ "\n"
        ++ String.join (({ st0 with objs := st0.objs ++ ["hack.pico"] } : GenState).rules.map renderAdhocRule)
        ++ "\n", ?_⟩
  rw [hout]
  rfl

/-- Witness for C3: the `bus_if.m` entry registers `bus_if.h` in the
before-depends set, and the early-build list contains an edge producing
it. -/
theorem C3_before_depends_witness :
    ∃ e ∈ genResM.1.early_builds, e.output = "bus_if.h" :=
  (C3_before_depends KW [fBusM] [] varsS genResM.1 genResM.2 (by rfl)).1
    "bus_if.h" (by decide)

theorem option_set_congr (K1 K2 : KernelConfig)
    (hopt : (K1.options.map Prod.fst).Perm (K2.options.map Prod.fst))
    (hdev : K1.devices.Perm K2.devices) (t : String) :
    K1.option_set t = K2.option_set t := by
  unfold KernelConfig.option_set
  by_cases h1 : pyUpper t ∈ K1.options.map Prod.fst
  · rw [if_pos h1, if_pos (hopt.mem_iff.mp h1)]
  · rw [if_neg h1, if_neg (fun hh => h1 (hopt.mem_iff.mpr hh))]
    by_cases h2 : pyLower t ∈ K1.devices
    · rw [if_pos h2, if_pos (hdev.mem_iff.mp h2)]
    · rw [if_neg h2, if_neg (fun hh => h2 (hdev.mem_iff.mpr hh))]

theorem evalItem_congr (K1 K2 : KernelConfig)
    (hos : ∀ t, K1.option_set t = K2.option_set t) (item : String) :
    evalItem K1 item = evalItem K2 item := by
  obtain ⟨d⟩ := item
  cases d with
  | nil => rfl
  | cons c rest =>
      show (if c = '!' then some (!(K1.option_set (String.mk rest)))
            else some (K1.option_set (String.mk (c :: rest)))) =
          (if c = '!' then some (!(K2.option_set (String.mk rest)))
            else some (K2.option_set (String.mk (c :: rest))))
      by_cases hc : c = '!'
      · rw [if_pos hc, if_pos hc, hos]
      · rw [if_neg hc, if_neg hc, hos]

theorem condSat_congr (K1 K2 : KernelConfig)
    (hos : ∀ t, K1.option_set t = K2.option_set t) (c : List String) :
    condSat K1 c = condSat K2 c := by
  induction c with
  | nil => rfl
  | cons i rest ih =>
      rw [condSat, condSat, evalItem_congr K1 K2 hos i]
      cases evalItem K2 i with
      | none => rfl
      | some b => cases b <;> simp [ih]

theorem configuredAux_congr (K1 K2 : KernelConfig)
    (hos : ∀ t, K1.option_set t = K2.option_set t) (cs : List (List String)) :
    configuredAux K1 cs = configuredAux K2 cs := by
  induction cs with
  | nil => rfl
  | cons c rest ih =>
      rw [configuredAux, configuredAux, condSat_congr K1 K2 hos c]
      cases condSat K2 c with
      | none => rfl
      | some b => cases b <;> simp [ih]

theorem configured_congr (K1 K2 : KernelConfig)
    (hos : ∀ t, K1.option_set t = K2.option_set t) (f : File) :
    f.configured K1 = f.configured K2 := by
  unfold File.configured
  by_cases he : f.optional.isEmpty
  · rw [if_pos he, if_pos he]
  · rw [if_neg he, if_neg he, configuredAux_congr K1 K2 hos]

theorem processFile_congr (K1 K2 : KernelConfig)
    (patterns : List (File → Option BuildEdge))
    (hos : ∀ t, K1.option_set t = K2.option_set t) (st : GenState) (f : File) :
    processFile K1 patterns st f = processFile K2 patterns st f := by
  unfold processFile
  rw [configured_congr K1 K2 hos f]

theorem processFiles_congr (K1 K2 : KernelConfig)
    (patterns : List (File → Option BuildEdge))
    (hos : ∀ t, K1.option_set t = K2.option_set t) :
    ∀ (files : List File) (st : GenState),
      processFiles K1 patterns files st = processFiles K2 patterns files st := by
  intro files
  induction files with
  | nil => intro st; rfl
  | cons f rest ih =>
      intro st
      rw [processFiles, processFiles, processFile_congr K1 K2 patterns hos st f]
      cases processFile K2 patterns st f with
      | error e => rfl
      | ok st' => exact ih st'

theorem serialize_congr (K1 K2 : KernelConfig) (hm : K1.machine = K2.machine)
    (hid : K1.ident = K2.ident) (vars : List (String × String)) (st : GenState) :
    serialize K1 vars st = serialize K2 vars st := by
  unfold serialize trailerText
  rw [hm, hid]

/-- C6: the bytes produced by `generate_rules` are a function of the parsed
inputs alone, and depend on the configuration's option table and device set
only through key membership: configurations agreeing on filename, machine
and ident whose option-key lists and device sets are permutations of one
another (values may even differ) produce identical results.  In particular
two runs over identical parsed inputs are byte-identical — no rule or edge
ordering depends on the iteration order of the unordered device set, the
only Python `set` the synthesizer consumes. -/
theorem C6_determinism (K1 K2 : KernelConfig) (files : List File)
    (patterns : List (File → Option BuildEdge)) (vars : List (String × String))
    (hfn : K1.filename = K2.filename) (hm : K1.machine = K2.machine)
    (hid : K1.ident = K2.ident)
    (hopt : (K1.options.map Prod.fst).Perm (K2.options.map Prod.fst))
    (hdev : K1.devices.Perm K2.devices) :
    generateRules K1 files patterns vars = generateRules K2 files patterns vars := by
  have hos : ∀ t, K1.option_set t = K2.option_set t :=
    option_set_congr K1 K2 hopt hdev
  unfold generateRules
  rw [processFiles_congr K1 K2 patterns hos files initGenState, hfn]
  exact congrArg (Except.bind (processFiles K2 patterns files initGenState))
    (funext (fun st => by rw [serialize_congr K1 K2 hm hid]))

/-- Witness for C6: two configurations whose device sets are the same set in
different representation order (and whose option tables share keys with
different values) yield identical generated bytes. -/
theorem C6_determinism_witness :
    generateRules K6a [fOptA] [] varsS = generateRules K6b [fOptA] [] varsS :=
  C6_determinism K6a K6b [fOptA] [] varsS rfl rfl rfl (by decide) (by decide)
